import Mathlib

/-!
Verification development for the MRDEPB streaming proxy's manifest rewriting
and DASH-to-HLS conversion engine.

The Python sources embedded here are
  src/utils/mpd_converter.py   (MPDToHLSConverter.convert_media_playlist)
  src/services/manifest_rewriter.py
    (ManifestRewriter.rewrite_mpd_manifest, ManifestRewriter.rewrite_manifest_urls)

Shallow embedding conventions:
  - XML documents are represented by structures holding the attributes and
    children the code reads (duck-typed `ElementTree` access becomes fields);
    numeric attributes appear pre-parsed (`int(...)` of the attribute text).
  - Python exceptions are modelled by `Except String`; the outer
    `try/except` of each entry point becomes a `match` on the `Except`.
  - Library functions used by the code (`urllib.parse.quote`,
    `urllib.parse.urljoin`, `os.path.dirname`, `str.strip`, `str.replace`,
    `str.split`, float `%.3f` formatting) are modelled below by executable
    Lean functions over `List Char` with the same observable behaviour on the
    inputs exercised in this development.
  - Durations (Python floats obtained as `d / timescale`) are modelled as
    rationals.
-/

/-! ## Modelled Python string primitives -/

/-- Model of Python `str.strip()`: the ASCII whitespace characters it removes. -/
def isPySpace (c : Char) : Bool :=
  c = ' ' || c = '\t' || c = '\n' || c = '\r' || c = Char.ofNat 11 || c = Char.ofNat 12

/-- Model of Python `str.strip()` on a string. -/
def pyStrip (s : String) : String :=
  ⟨((s.data.dropWhile isPySpace).reverse.dropWhile isPySpace).reverse⟩

/-- Substring test at the list level: does `pat` occur inside `l`? -/
def listHasInfix (pat l : List Char) : Bool :=
  l.tails.any (fun t => pat.isPrefixOf t)

/-- Model of Python `pat in s` (substring containment). -/
def strContains (s pat : String) : Bool :=
  listHasInfix pat.data s.data

/-- Does `p` occur as a prefix of `s`? Model of Python `str.startswith`. -/
def strStarts (s p : String) : Bool :=
  p.data.isPrefixOf s.data

/-- Does `p` occur as a suffix of `s`? Model of Python `str.endswith`. -/
def strEnds (s p : String) : Bool :=
  p.data.isSuffixOf s.data

/-- First index at which `pat` occurs in `l` (model of Python `str.find`,
with `none` standing for the -1 "not found" result). -/
def findSubAux (pat : List Char) : List Char → Option Nat
  | [] => if pat.isPrefixOf ([] : List Char) then some 0 else none
  | c :: rest =>
    if pat.isPrefixOf (c :: rest) then some 0
    else (findSubAux pat rest).map (· + 1)

/-- Model of Python `s.find(pat)` (code-point indices). -/
def strFind (s pat : String) : Option Nat :=
  findSubAux pat.data s.data

/-- First index `≥ start` holding character `c` (model of `s.find(c, start)`). -/
def findCharFromAux (c : Char) : List Char → Nat → Option Nat
  | [], _ => none
  | x :: rest, 0 =>
    if x = c then some 0 else (findCharFromAux c rest 0).map (· + 1)
  | _ :: rest, k + 1 => (findCharFromAux c rest k).map (· + 1)

/-- Model of Python `s.find(c, start)` for a single character. -/
def strFindCharFrom (s : String) (c : Char) (start : Nat) : Option Nat :=
  findCharFromAux c s.data start

/-- Python slice `s[:i]` by code points. -/
def strTake (s : String) (i : Nat) : String := ⟨s.data.take i⟩

/-- Python slice `s[i:]` by code points. -/
def strDrop (s : String) (i : Nat) : String := ⟨s.data.drop i⟩

/-- Python slice `s[i:j]` by code points. -/
def strSlice (s : String) (i j : Nat) : String := ⟨(s.data.take j).drop i⟩

/-- Replace every (non-overlapping, leftmost-first) occurrence of `p` by `r`,
fuel-bounded so that the recursion is structural; model of `str.replace`. -/
def replaceAllAux (p r : List Char) : Nat → List Char → List Char
  | 0, l => l
  | _ + 1, [] => []
  | fuel + 1, c :: rest =>
    if p.isPrefixOf (c :: rest) then
      r ++ replaceAllAux p r fuel ((c :: rest).drop p.length)
    else
      c :: replaceAllAux p r fuel rest

/-- Model of Python `s.replace(p, r)` (all occurrences); for the empty
pattern the string is returned unchanged (that case is never exercised). -/
def pyReplace (s p r : String) : String :=
  if p.data.isEmpty then s else ⟨replaceAllAux p.data r.data s.data.length s.data⟩

/-- Split a character list at every occurrence of `sep`. -/
def splitCharAux (sep : Char) : List Char → List (List Char)
  | [] => [[]]
  | c :: rest =>
    let r := splitCharAux sep rest
    if c = sep then [] :: r
    else
      match r with
      | h :: t => (c :: h) :: t
      | [] => [[c]]

/-- Model of Python `s.split(sep)` for a one-character separator. -/
def pySplitChar (sep : Char) (s : String) : List String :=
  (splitCharAux sep s.data).map (fun l => ⟨l⟩)

/-- Model of Python `'\n'.join(lines)`. -/
def joinNl : List String → String
  | [] => ""
  | [l] => l
  | l :: rest => l ++ "\n" ++ joinNl rest

/-- Model of Python `list.insert(i, x)` (clamping at the end like Python). -/
def insertAt {α : Type} : Nat → α → List α → List α
  | 0, x, l => x :: l
  | _ + 1, x, [] => [x]
  | n + 1, x, c :: rest => c :: insertAt n x rest

/-- Model of Python `str.lower()` restricted to ASCII letters. -/
def pyLowerChar (c : Char) : Char :=
  if 'A' ≤ c ∧ c ≤ 'Z' then Char.ofNat (c.toNat + 32) else c

/-- Model of Python `str.lower()`. -/
def pyLower (s : String) : String := ⟨s.data.map pyLowerChar⟩

/-! ## Percent-encoding (`urllib.parse.quote`) -/

/-- UTF-8 byte sequence of one character (RFC 3629). -/
def utf8Bytes (c : Char) : List Nat :=
  let n := c.toNat
  if n < 0x80 then [n]
  else if n < 0x800 then [0xC0 + n / 0x40, 0x80 + n % 0x40]
  else if n < 0x10000 then
    [0xE0 + n / 0x1000, 0x80 + n / 0x40 % 0x40, 0x80 + n % 0x40]
  else
    [0xF0 + n / 0x40000, 0x80 + n / 0x1000 % 0x40, 0x80 + n / 0x40 % 0x40,
     0x80 + n % 0x40]

/-- Upper-case hex digit for a value below 16. -/
def hexDigit (n : Nat) : Char :=
  if n < 10 then Char.ofNat ('0'.toNat + n) else Char.ofNat ('A'.toNat + n - 10)

/-- `%XX` escape of one byte, upper-case as `urllib.parse.quote` emits. -/
def pctEncode (b : Nat) : List Char :=
  ['%', hexDigit (b / 16), hexDigit (b % 16)]

/-- The characters `urllib.parse.quote` never escapes regardless of `safe`. -/
def isUnreserved (c : Char) : Bool :=
  ('A' ≤ c && c ≤ 'Z') || ('a' ≤ c && c ≤ 'z') || ('0' ≤ c && c ≤ '9') ||
  c = '_' || c = '.' || c = '-' || c = '~'

/-- Model of `urllib.parse.quote(s, safe=<safe>)`: unreserved and safe
characters pass through, everything else is escaped byte-wise (UTF-8). -/
def pyQuote (safe : List Char) (s : String) : String :=
  ⟨s.data.flatMap (fun c =>
    if isUnreserved c || (c.toNat < 0x80 && safe.contains c) then [c]
    else (utf8Bytes c).flatMap pctEncode)⟩

/-- `urllib.parse.quote` with its default `safe='/'`, as used for the
`h_<name>=<value>` header parameters. -/
def pyQuoteDef (s : String) : String := pyQuote ['/'] s

/-! ## URL helpers (`urljoin`, `os.path.dirname`, `urlparse(...).query`) -/

/-- Does the string begin with a URI scheme followed by a colon
(letters only, as in every URL this proxy handles)? -/
def hasScheme (s : String) : Bool :=
  match findCharFromAux ':' s.data 0 with
  | none => false
  | some i =>
    0 < i && (s.data.take i).all (fun c =>
      ('A' ≤ c && c ≤ 'Z') || ('a' ≤ c && c ≤ 'z'))

/-- `scheme://host` part of an absolute URL: everything up to the first `/`
after the `://` separator. -/
def siteRoot (base : String) : String :=
  match strFind base "://" with
  | none => base
  | some i =>
    match findCharFromAux '/' base.data (i + 3) with
    | none => base
    | some j => strTake base j

/-- Index of the last occurrence of `c`, if any. -/
def lastIdxOf (c : Char) (l : List Char) : Option Nat :=
  (findCharFromAux c l.reverse 0).map (fun i => l.length - 1 - i)

/-- Directory part of an absolute URL including the trailing slash
(query string stripped); used to resolve relative references. -/
def urlDirOf (base : String) : String :=
  let noq := match findCharFromAux '?' base.data 0 with
    | none => base
    | some i => strTake base i
  let start := match strFind noq "://" with
    | none => 0
    | some i => i + 3
  match lastIdxOf '/' (noq.data.drop start) with
  | none => noq ++ "/"
  | some j => strTake noq (start + j + 1)

/-- Model of `urllib.parse.urljoin(base, ref)` restricted to the URL shapes
this proxy produces: absolute references win, `//`-references adopt the base
scheme, rooted references attach to the site root, and other references are
resolved against the base directory (dot-segment normalisation is not
modelled; no manifest in this development uses dot segments). -/
def urljoinModel (base ref : String) : String :=
  if ref = "" then base
  else if hasScheme ref then ref
  else if strStarts ref "//" then
    (match strFind base "://" with
     | none => base
     | some i => strTake base i) ++ ":" ++ ref
  else if strStarts ref "/" then siteRoot base ++ ref
  else urlDirOf base ++ ref

/-- Model of `os.path.dirname` (posix): text before the last `/`, with
trailing slashes stripped unless the result is all slashes. -/
def pyDirname (p : String) : String :=
  match lastIdxOf '/' p.data with
  | none => ""
  | some i =>
    let head := p.data.take (i + 1)
    if head.all (fun c => c = '/') then ⟨head⟩
    else ⟨(head.reverse.dropWhile (fun c => c = '/')).reverse⟩

/-- Model of `urllib.parse.urlparse(u).query`: the text after the first `?`
of the fragment-stripped URL (empty when there is no query). -/
def urlQueryOf (u : String) : String :=
  let nofrag := match findCharFromAux '#' u.data 0 with
    | none => u
    | some i => strTake u i
  match findCharFromAux '?' nofrag.data 0 with
  | none => ""
  | some i => strDrop nofrag (i + 1)

/-! ## Exact fractions

Python float values in the converter all arise as `d / timescale`; they are
modelled exactly as fractions `num / den` kept unnormalised (core `ℚ`
arithmetic is irreducible to the kernel, so a transparent representation is
used; `Frac.toRat` maps into `ℚ` for specification statements). -/

/-- An unnormalised fraction `num / den`. -/
structure Frac where
  num : Int
  den : Nat
deriving DecidableEq

/-- The rational value of a fraction. -/
def Frac.toRat (q : Frac) : ℚ := (q.num : ℚ) / (q.den : ℚ)

/-- The fraction `d / ts` (Python `d / timescale`, true division). -/
def fracDiv (d : Nat) (ts : Nat) : Frac := ⟨d, ts⟩

/-- The fraction of an integer. -/
def intFrac (n : Int) : Frac := ⟨n, 1⟩

/-- Exact addition of fractions (cross multiplication). -/
def qadd (a b : Frac) : Frac :=
  ⟨a.num * b.den + b.num * a.den, a.den * b.den⟩

/-- Comparison `a ≤ b` by cross multiplication (exact for the
positive-denominator fractions the converter manipulates). -/
def qleB (a b : Frac) : Bool :=
  decide (a.num * (b.den : Int) ≤ b.num * (a.den : Int))

/-- Python `max(a, b)` on fractions. -/
def qmax (a b : Frac) : Frac := if qleB a b then b else a

/-- Floor of a fraction (exact when the denominator is positive). -/
def qfloor (q : Frac) : Int := Int.fdiv q.num (q.den : Int)

/-- Truncation toward zero, the behaviour of Python `int(float)`. -/
def qtrunc (q : Frac) : Int := Int.tdiv q.num (q.den : Int)

/-! ## Fixed-point decimal formatting (`f"{x:.3f}"`, `f"{x:.6f}"`) -/

/-- Round-half-to-even of `q` to an integer, the rounding used by Python
float formatting, via integer comparisons of `2 (q - ⌊q⌋) · den` with `den`. -/
def roundHalfEven (q : Frac) : Int :=
  let f := qfloor q
  let rem2 := 2 * (q.num - f * (q.den : Int))
  if rem2 < (q.den : Int) then f
  else if (q.den : Int) < rem2 then f + 1
  else if f % 2 = 0 then f else f + 1

/-- Decimal digits of `m` padded on the left with zeros to width `w`. -/
def padZero (w : Nat) (m : Nat) : String :=
  let d := toString m
  ⟨List.replicate (w - d.length) '0'⟩ ++ d

/-- Model of Python `f"{x:.<prec>f}"` on the fraction `x`. -/
def fmtFixed (prec : Nat) (q : Frac) : String :=
  let n := roundHalfEven ⟨q.num * (10 ^ prec : Nat), q.den⟩
  let sign := if n < 0 then "-" else ""
  let m := n.natAbs
  sign ++ toString (m / 10 ^ prec) ++ "." ++ padZero prec (m % 10 ^ prec)

/-! ## DASH document model

Structures mirror exactly the attributes and children that
`mpd_converter.py` and `manifest_rewriter.py` read from the parsed
`ElementTree`. Integer-valued attributes appear pre-parsed (the `int(...)`
calls of the source); `timescale` and `d` are unsigned in DASH and are
modelled as `Nat`, `startNumber`/`r`/`t` as `Int` exactly as `int()` yields. -/

/-- One `<S>` element of a `SegmentTimeline`: optional `t`, mandatory `d`,
`r` defaulting to 0 (`mpd_converter.py` lines 196-200). -/
structure SEntry where
  t : Option Int
  d : Nat
  r : Int
deriving DecidableEq

/-- A `<SegmentTemplate>` with the attributes the converter and the rewriter
read: `timescale` (default 1), `startNumber` (default 1), `duration`
(default 0), `initialization`, `media`, and an optional `SegmentTimeline`. -/
structure SegmentTemplate where
  timescale : Nat := 1
  startNumber : Int := 1
  durationAttr : Int := 0
  initialization : Option String := none
  media : Option String := none
  timeline : Option (List SEntry) := none
deriving DecidableEq

/-- A child element of a `<ContentProtection>` node (e.g. a `Laurl`);
`tag` is the fully qualified tag name, `text` its text content. -/
structure CPChild where
  tag : String
  text : Option String
deriving DecidableEq

/-- A `<ContentProtection>` element: `schemeIdUri` and `value` attributes,
the `cenc:default_KID` attribute, and child elements. -/
structure ContentProtection where
  schemeIdUri : Option String := none
  valueAttr : Option String := none
  defaultKID : Option String := none
  children : List CPChild := []
deriving DecidableEq

/-- A `<Representation>`: its `id` and its own `SegmentTemplate` child.
(Named `RepresentationNode` because `Representation` is taken by Mathlib.) -/
structure RepresentationNode where
  id : String
  segmentTemplate : Option SegmentTemplate := none
deriving DecidableEq

/-- An `<AdaptationSet>`: `ContentProtection` children, an inherited
`SegmentTemplate`, and the `Representation` children. -/
structure AdaptationSet where
  contentProtections : List ContentProtection := []
  segmentTemplate : Option SegmentTemplate := none
  representations : List RepresentationNode := []
deriving DecidableEq

/-- A parsed MPD document with everything the two Python files access:
the root `type` attribute, the `BaseURL` text nodes, whether a `Period`
element exists, `SegmentURL` `media` attributes, and the adaptation sets. -/
structure MPDDoc where
  mpdType : Option String := none
  baseURLs : List String := []
  periodPresent : Bool := true
  segmentURLs : List (Option String) := []
  adaptationSets : List AdaptationSet := []
deriving DecidableEq

/-- One expanded segment produced from the timeline
(`mpd_converter.py` lines 205-213): running time, sequence number,
duration in seconds (`d / timescale`), and the raw `d`. -/
structure Segment where
  time : Int
  number : Int
  duration : Frac
  d : Nat
deriving DecidableEq

/-! ## convert_media_playlist (mpd_converter.py lines 105-301) -/

/-- `mpd_type = root.get('type', 'static'); is_live = mpd_type.lower() == 'dynamic'`
(lines 114-115). -/
def mpdIsLive (doc : MPDDoc) : Bool :=
  pyLower (doc.mpdType.getD "static") = "dynamic"

/-- Locate the `Representation` with the requested id and its enclosing
`AdaptationSet` (lines 122-127): first adaptation set containing a matching
representation wins. -/
def findRep (doc : MPDDoc) (repId : String) :
    Option (AdaptationSet × RepresentationNode) :=
  doc.adaptationSets.findSome? (fun a =>
    (a.representations.find? (fun r => r.id = repId)).map (fun r => (a, r)))

/-- The template used for segment generation: the representation's own, else
the adaptation set's (lines 158-161). -/
def tmplOf (rep : RepresentationNode) (aset : AdaptationSet) :
    Option SegmentTemplate :=
  match rep.segmentTemplate with
  | some st => some st
  | none => aset.segmentTemplate

/-- Parse the `clearkey` parameter `kid:key` (lines 147-154): on success,
server-side decryption is enabled and the `&key=...&key_id=...` suffix
built; a split failure is caught and decryption stays off. -/
def parseClearkey : Option String → Bool × String
  | none => (false, "")
  | some ck =>
    if ck = "" then (false, "")
    else
      match pySplitChar ':' ck with
      | [kid, key] => (true, "&key=" ++ key ++ "&key_id=" ++ kid)
      | _ => (false, "")

/-- The inner repetition loop of the timeline expansion (lines 205-213):
emit `k` segments starting at clock `ct` and number `n`, returning the
segments together with the final clock and number. -/
def segRun (d : Nat) (dur : Frac) : Int → Int → Nat → List Segment × Int × Int
  | ct, n, 0 => ([], ct, n)
  | ct, n, k + 1 =>
    let rest := segRun d dur (ct + d) (n + 1) k
    (⟨ct, n, dur, d⟩ :: rest.1, rest.2)

/-- The timeline expansion loop (lines 192-213): running clock starts at 0,
`t` (when present and non-empty) resets the clock, each entry emits
`r + 1` segments (`range(r+1)`, hence none when `r < 0`). -/
def expandFrom (ts : Nat) : Int → Int → List SEntry → List Segment
  | _, _, [] => []
  | ct, n, e :: rest =>
    let ct0 := match e.t with | some t => t | none => ct
    let out := segRun e.d (fracDiv e.d ts) ct0 n (e.r + 1).toNat
    out.1 ++ expandFrom ts out.2.1 out.2.2 rest

/-- Expansion of a whole `SegmentTimeline` (`current_time = 0`,
`segment_number = start_number`, lines 193-194). -/
def expandTimeline (startNumber : Int) (ts : Nat) (entries : List SEntry) :
    List Segment :=
  expandFrom ts 0 startNumber entries

/-- Rational value of the summed durations of a segment list (used by the
specification statements about the live window). -/
def sumDur (l : List Segment) : ℚ := (l.map (fun s => s.duration.toRat)).sum

/-- The reverse accumulation loop of the live window (lines 224-232),
applied to the reversed segment list: collect segments until the running
total reaches 30 seconds (`LIVE_WINDOW_SECONDS`). -/
def windowRev (total : Frac) : List Segment → List Segment
  | [] => []
  | s :: rest =>
    let total2 := qadd total s.duration
    if qleB (intFrac 30) total2 then [s] else s :: windowRev total2 rest

/-- The retained live window (lines 220-234): walk the expanded list from
the end accumulating durations until 30 seconds are reached. -/
def liveWindow (l : List Segment) : List Segment :=
  (windowRev (intFrac 0) l.reverse).reverse

/-- `max(seg['duration'] for seg in segments_to_use)` (line 238). -/
def maxDur (w0 : Segment) (ws : List Segment) : Frac :=
  ws.foldl (fun a s => qmax a s.duration) w0.duration

/-- Header lines for a live playlist (lines 136-138). -/
def hdrLive : List String :=
  ["#EXTM3U", "#EXT-X-VERSION:7", "#EXT-X-START:TIME-OFFSET=-3.0,PRECISE=YES"]

/-- Header lines for a VOD playlist (line 140). -/
def hdrVod : List String :=
  ["#EXTM3U", "#EXT-X-VERSION:7", "#EXT-X-TARGETDURATION:10",
   "#EXT-X-PLAYLIST-TYPE:VOD"]

/-- `#EXT-X-TARGETDURATION` line (line 239). -/
def tdLine (n : Int) : String := "#EXT-X-TARGETDURATION:" ++ toString n

/-- `#EXT-X-MEDIA-SEQUENCE` line (lines 242 and 244). -/
def msLine (n : Int) : String := "#EXT-X-MEDIA-SEQUENCE:" ++ toString n

/-- `#EXT-X-MAP` line for the initialization segment (lines 185-186). -/
def mapLine (pb encInit params : String) : String :=
  "#EXT-X-MAP:URI=" ++ "\"" ++ (pb ++ ("/segment/init.mp4?base_url=" ++
    (encInit ++ (params ++ "\""))))

/-- `#EXTINF` line with the given precision (lines 255 and 290). -/
def extinfLine (prec : Nat) (q : Frac) : String :=
  "#EXTINF:" ++ fmtFixed prec q ++ ","

/-- `base_url` resolution (lines 170-172): first root `BaseURL` text if
present, else the directory of the original URL; a trailing slash is
enforced. -/
def resolveBaseUrl (doc : MPDDoc) (origUrl : String) : String :=
  let b := (doc.baseURLs.head?).getD (pyDirname origUrl)
  if strEnds b "/" then b else b ++ "/"

/-- The two lines emitted per retained timeline segment (lines 246-265):
an `#EXTINF:{duration:.3f},` line, then either the server-side decryption
URL or the standard proxy segment URL. -/
def timelineSegLines (ssd : Bool) (pb baseUrl m repId encInit decParams params :
    String) (seg : Segment) : List String :=
  let segName :=
    pyReplace (pyReplace (pyReplace m "$RepresentationID$" repId)
      "$Number$" (toString seg.number)) "$Time$" (toString seg.time)
  let enc := pyQuote [] (urljoinModel baseUrl segName)
  [extinfLine 3 seg.duration,
   if ssd then
     pb ++ ("/decrypt/segment.mp4?url=" ++ (enc ++ ("&init_url=" ++
       (encInit ++ (decParams ++ params)))))
   else
     pb ++ ("/segment/" ++ (segName ++ ("?base_url=" ++ (enc ++ params))))]

/-- The two lines emitted per fixed-duration fallback segment
(lines 281-291): `#EXTINF:{duration:.6f},` then the proxy URL
`.../segment/seg_<n>.m4s?...`. -/
def fallbackSegLines (pb baseUrl m repId params : String) (sn : Int)
    (dsec : Frac) (i : Nat) : List String :=
  let segNum : Int := sn + i
  let segName :=
    pyReplace (pyReplace m "$RepresentationID$" repId)
      "$Number$" (toString segNum)
  let enc := pyQuote [] (urljoinModel baseUrl segName)
  [extinfLine 6 dsec,
   pb ++ ("/segment/seg_" ++ (toString segNum ++ (".m4s?base_url=" ++
     (enc ++ params))))]

/-- Body of `convert_media_playlist` (lines 107-297) in the exception monad:
`.error` marks the places where the Python body raises (caught by the outer
handler) or returns the not-found error playlist early (line 131): the
missing representation, `d / timescale` with `timescale` 0 (line 202),
`media.replace` on a missing `media` attribute (lines 248, 283),
`period.get` on a missing `Period` (line 274), and
`duration / timescale` with `timescale` 0 (line 279). -/
def convertMediaCore (doc : MPDDoc) (repId pb origUrl params : String)
    (ckParam : Option String) : Except String (List String) :=
  let isLive := mpdIsLive doc
  match findRep doc repId with
  | none => .error "Representation not found"
  | some (aset, rep) =>
    let hdr := if isLive then hdrLive else hdrVod
    let sp := parseClearkey ckParam
    let ssd := sp.1
    let decParams := sp.2
    let endl : List String := if isLive then [] else ["#EXT-X-ENDLIST"]
    match tmplOf rep aset with
    | none => .ok (hdr ++ endl)
    | some st =>
      let baseUrl := resolveBaseUrl doc origUrl
      let encInit :=
        match st.initialization with
        | some ini =>
          pyQuote [] (urljoinModel baseUrl
            (pyReplace ini "$RepresentationID$" repId))
        | none => ""
      let mapLines : List String :=
        match st.initialization with
        | some _ => if ssd then [] else [mapLine pb encInit params]
        | none => []
      match st.timeline with
      | some entries =>
        if st.timescale = 0 ∧ entries ≠ [] then .error "division by zero"
        else
        let segs := expandTimeline st.startNumber st.timescale entries
        match isLive, segs with
        | true, s0 :: srest =>
          match liveWindow (s0 :: srest) with
          | [] => .error "max() arg is an empty sequence"
          | w0 :: wrest =>
            let pre := insertAt 2 (tdLine (qtrunc (maxDur w0 wrest) + 1))
              (hdr ++ mapLines)
            match st.media with
            | none => .error "NoneType object has no attribute replace"
            | some m =>
              .ok (pre ++ [msLine w0.number] ++
                (w0 :: wrest).flatMap
                  (timelineSegLines ssd pb baseUrl m repId encInit decParams
                    params) ++ endl)
        | _, _ =>
          match segs, st.media with
          | [], _ => .ok (hdr ++ mapLines ++ [msLine 0] ++ endl)
          | _ :: _, none => .error "NoneType object has no attribute replace"
          | g0 :: grest, some m =>
            .ok (hdr ++ mapLines ++ [msLine 0] ++
              (g0 :: grest).flatMap
                (timelineSegLines ssd pb baseUrl m repId encInit decParams
                  params) ++ endl)
      | none =>
        if 0 < st.durationAttr then
          if doc.periodPresent = false then
            .error "NoneType object has no attribute get"
          else if st.timescale = 0 then .error "division by zero"
          else
            match st.media with
            | none => .error "NoneType object has no attribute replace"
            | some m =>
              .ok (hdr ++ mapLines ++
                (List.range 100).flatMap
                  (fallbackSegLines pb baseUrl m repId params st.startNumber
                    ⟨st.durationAttr, st.timescale⟩) ++ endl)
        else .ok (hdr ++ mapLines ++ endl)

/-- `convert_media_playlist` as the list of emitted lines: the body's result,
or the synthetic error playlist built by the exception handler
(lines 299-301 and 131). -/
def convert_media_playlist (doc : MPDDoc) (repId pb origUrl params : String)
    (ckParam : Option String) : List String :=
  match convertMediaCore doc repId pb origUrl params ckParam with
  | .ok ls => ls
  | .error e => ["#EXTM3U", "#EXT-X-ERROR: " ++ e]

/-! ## Namespace normalisation (manifest_rewriter.py lines 21-22,
mpd_converter.py lines 108-109) -/

/-- The attribute text injected on the root element. -/
def dashNsAttr : String := " xmlns=" ++ "\"urn:mpeg:dash:schema:mpd:2011\""

/-- Replace the first occurrence of `p` by `r` (Python `s.replace(p, r, 1)`). -/
def replaceFirstAux (p r : List Char) : Nat → List Char → List Char
  | 0, l => l
  | _ + 1, [] => []
  | fuel + 1, c :: rest =>
    if p.isPrefixOf (c :: rest) then r ++ (c :: rest).drop p.length
    else c :: replaceFirstAux p r fuel rest

/-- Model of `s.replace(p, r, 1)`. -/
def pyReplaceFirst (s p r : String) : String :=
  if p.data.isEmpty then s
  else ⟨replaceFirstAux p.data r.data s.data.length s.data⟩

/-- The normalisation both entry points perform before parsing:
`if 'xmlns' not in manifest_content: manifest_content =
manifest_content.replace('<MPD', '<MPD xmlns="urn:mpeg:dash:schema:mpd:2011"', 1)`. -/
def normalizeMPD (content : String) : String :=
  if strContains content "xmlns" then content
  else pyReplaceFirst content "<MPD" ("<MPD" ++ dashNsAttr)

/-- Specification-side predicate, following the spec words "the input
declares no default namespace": an XML default namespace declaration is an
`xmlns="..."` attribute, so the text declares one exactly when it contains
the substring `xmlns=`. -/
def declaresDefaultNamespace (content : String) : Bool :=
  strContains content "xmlns="

/-! ## rewrite_mpd_manifest (manifest_rewriter.py lines 16-139) -/

/-- The ClearKey scheme UUID (lines 52, 86). -/
def clearKeyUuid : String := "e2719d58-a985-b3c9-781a-007147f192ec"

/-- The full ClearKey scheme URI set on the injected element (line 52)
and compared exactly on line 93. -/
def clearKeyUrn : String := "urn:uuid:e2719d58-a985-b3c9-781a-007147f192ec"

/-- The `&h_<name>=<value>` parameter string built from the stream headers
(line 33): both name and value pass through `urllib.parse.quote` with its
default `safe='/'`. -/
def headerParamsOf (headers : List (String × String)) : String :=
  String.join (headers.map (fun kv =>
    "&h_" ++ pyQuoteDef kv.1 ++ "=" ++ pyQuoteDef kv.2))

/-- `&api_password=...` suffix when an API password is given
(lines 35-36, 58-59, 212-213, 250-251). -/
def apiSuffix : Option String → String
  | some pw => "&api_password=" ++ pw
  | none => ""

/-- `create_proxy_url` (lines 38-41). -/
def create_proxy_url (baseUrl pb headerParams rel : String) : String :=
  pb ++ ("/proxy/mpd/manifest.m3u8?d=" ++
    (pyQuote [] (urljoinModel baseUrl rel) ++ headerParams))

/-- The `ContentProtection` element built for ClearKey injection
(lines 50-73): scheme URI, `value="ClearKey"`, two `Laurl` children (MPD and
DASH-IF namespaces) pointing at the proxy license endpoint, and the dashed
`cenc:default_KID` when the KID has 32 characters. -/
def mkCpElement (ckp kid pb : String) (apiPw : Option String) :
    ContentProtection :=
  let licenseUrl := pb ++ ("/license?clearkey=" ++ ckp ++ apiSuffix apiPw)
  { schemeIdUri := some clearKeyUrn,
    valueAttr := some "ClearKey",
    defaultKID :=
      if kid.length = 32 then
        some (strSlice kid 0 8 ++ "-" ++ strSlice kid 8 12 ++ "-" ++
          strSlice kid 12 16 ++ "-" ++ strSlice kid 16 20 ++ "-" ++
          strDrop kid 20)
      else none,
    children :=
      [⟨"\x7burn:mpeg:dash:schema:mpd:2011\x7dLaurl", some licenseUrl⟩,
       ⟨"\x7bhttp://dashif.org/guidelines/clearKey\x7dLaurl", some licenseUrl⟩] }

/-- Is this `ContentProtection` kept by the removal pass (line 86): its
lower-cased scheme contains the ClearKey UUID? -/
def keepCP (cp : ContentProtection) : Bool :=
  strContains (pyLower (cp.schemeIdUri.getD "")) clearKeyUuid

/-- Is this `ContentProtection` the exact ClearKey entry (line 93)? -/
def isClearKeyCP (cp : ContentProtection) : Bool :=
  cp.schemeIdUri = some clearKeyUrn

/-- The per-`AdaptationSet` ClearKey processing (lines 80-101): drop every
`ContentProtection` whose scheme does not contain the ClearKey UUID, then
insert the new element at position 0 unless an exact ClearKey entry is
already present. -/
def ckProcessAset (cpNew : ContentProtection) (a : AdaptationSet) :
    AdaptationSet :=
  let kept := a.contentProtections.filter keepCP
  if kept.any isClearKeyCP then { a with contentProtections := kept }
  else { a with contentProtections := cpNew :: kept }

/-- The ClearKey injection step (lines 44-104): only runs for a non-empty
`clearkey` parameter; a parameter that does not split into `kid:key` raises
inside the inner `try` and leaves the document unchanged. -/
def clearkeyStep (ckParam : Option String) (pb : String)
    (apiPw : Option String) (doc : MPDDoc) : MPDDoc :=
  match ckParam with
  | none => doc
  | some ckp =>
    if ckp = "" then doc
    else
      match pySplitChar ':' ckp with
      | [kid, _key] =>
        { doc with adaptationSets :=
            doc.adaptationSets.map (ckProcessAset (mkCpElement ckp kid pb apiPw)) }
      | _ => doc

/-- License-URL rewriting inside one `ContentProtection` (lines 108-117):
every child whose tag contains `Laurl` and has non-empty text is redirected
to the proxy license endpoint. -/
def licenseCP (pb headerParams : String) (cp : ContentProtection) :
    ContentProtection :=
  { cp with children := cp.children.map (fun ch =>
      match ch.text with
      | some t =>
        if strContains ch.tag "Laurl" ∧ t ≠ "" then
          { ch with text := some (pb ++ ("/license?url=" ++
              (pyQuote [] t ++ headerParams))) }
        else ch
      | none => ch) }

/-- Rewrite a truthy optional attribute through `create_proxy_url`
(the `if template_tag.get(attr):` tests of lines 122 and 127). -/
def truthyRewrite (cpu : String → String) : Option String → Option String
  | some s => if s ≠ "" then some (cpu s) else some s
  | none => none

/-- `SegmentTemplate` attribute rewriting (lines 120-123). -/
def stRewrite (cpu : String → String) (st : SegmentTemplate) :
    SegmentTemplate :=
  { st with media := truthyRewrite cpu st.media,
            initialization := truthyRewrite cpu st.initialization }

/-- The whole tree transformation of `rewrite_mpd_manifest` after a
successful parse (lines 33-135, excluding serialisation): ClearKey
injection, license-URL redirection, and `SegmentTemplate`/`SegmentURL`/
`BaseURL` rewriting. -/
def transform_mpd (doc : MPDDoc) (baseUrl pb : String)
    (headers : List (String × String)) (ckParam apiPw : Option String) :
    MPDDoc :=
  let headerParams := headerParamsOf headers ++ apiSuffix apiPw
  let cpu := create_proxy_url baseUrl pb headerParams
  let doc1 : MPDDoc := clearkeyStep ckParam pb apiPw doc
  let doc2 : MPDDoc := { doc1 with adaptationSets := doc1.adaptationSets.map (fun a : AdaptationSet =>
    { a with contentProtections :=
        a.contentProtections.map (licenseCP pb headerParams) }) }
  { doc2 with
    adaptationSets := doc2.adaptationSets.map (fun a : AdaptationSet =>
      { a with segmentTemplate := a.segmentTemplate.map (stRewrite cpu),
               representations := a.representations.map (fun r : RepresentationNode =>
                 { r with segmentTemplate :=
                     r.segmentTemplate.map (stRewrite cpu) }) }),
    segmentURLs := doc2.segmentURLs.map (fun m =>
      match m with
      | some s => if s ≠ "" then some (cpu s) else some s
      | none => none),
    baseURLs := doc2.baseURLs.map (fun t => if t ≠ "" then cpu t else t) }

/-- The composite per-`AdaptationSet` effect of `transform_mpd` when the
ClearKey step runs with a well-formed `kid:key` parameter: ClearKey
processing, then license-URL rewriting, then `SegmentTemplate`
rewriting. -/
def ckFullStep (baseUrl pb : String) (headers : List (String × String))
    (ckp : String) (apiPw : Option String) (kid : String)
    (a : AdaptationSet) : AdaptationSet :=
  let hp := headerParamsOf headers ++ apiSuffix apiPw
  let cpu := create_proxy_url baseUrl pb hp
  let a1 := ckProcessAset (mkCpElement ckp kid pb apiPw) a
  let a2 := { a1 with contentProtections :=
    a1.contentProtections.map (licenseCP pb hp) }
  { a2 with
    segmentTemplate := a2.segmentTemplate.map (stRewrite cpu),
    representations := a2.representations.map (fun r =>
      { r with segmentTemplate := r.segmentTemplate.map (stRewrite cpu) }) }

/-- `rewrite_mpd_manifest` (lines 16-139). XML parsing and serialisation are
external (`ET.fromstring` / `ET.tostring`) and enter as the function
parameters `parse` (failing exactly on malformed XML) and `serialize`.
The body normalises the namespace, rebinding the local `manifest_content`
variable (line 22), parses, transforms and serialises; the exception handler
(lines 137-139) returns the rebound `manifest_content`. -/
def rewrite_mpd_manifest (parse : String → Except String MPDDoc)
    (serialize : MPDDoc → String) (content baseUrl pb : String)
    (headers : List (String × String)) (ckParam apiPw : Option String) :
    String :=
  let content2 := normalizeMPD content
  match parse content2 with
  | .error _ => content2
  | .ok doc => serialize (transform_mpd doc baseUrl pb headers ckParam apiPw)

/-- Number of exact ClearKey `ContentProtection` entries of an adaptation
set. -/
def clearKeyCount (a : AdaptationSet) : Nat :=
  a.contentProtections.countP (fun cp => isClearKeyCP cp)

/-! ## rewrite_manifest_urls, standard (non-VixSrc) path
(manifest_rewriter.py lines 202-347) -/

/-- Context of one `rewrite_manifest_urls` call: resolved base URL, proxy
base, original channel URL, stream headers, API password, and the
classification outcome for the DLHD special case (the `classify`
collaborator's result, line 163). -/
structure HLSCtx where
  baseUrl : String
  pb : String
  chanUrl : String
  headers : List (String × String)
  apiPw : Option String
  isDlhd : Bool
deriving DecidableEq

/-- `header_params` of the standard path (lines 210-213). -/
def HLSCtx.headerParams (ctx : HLSCtx) : String :=
  headerParamsOf ctx.headers ++ apiSuffix ctx.apiPw

/-- Replacement URL for an `#EXT-X-KEY` URI (lines 229-251): key endpoint
with the resolved key URL, the channel URL, one `h_` pair per header
(line 244-247), and the optional API password. -/
def keyProxyUrl (ctx : HLSCtx) (origKeyUrl : String) : String :=
  ctx.pb ++ ("/key?key_url=" ++
    (pyQuote [] (urljoinModel ctx.baseUrl origKeyUrl) ++
      ("&original_channel_url=" ++ (pyQuote [] ctx.chanUrl ++
        (headerParamsOf ctx.headers ++ apiSuffix ctx.apiPw)))))

/-- Rewrite of the quoted `URI="..."` portion shared by the KEY, MEDIA and
MAP branches: locate the first `URI="`, the closing quote, and splice
`mk` applied to the attribute value between them; when the pattern is
absent or empty the stripped line passes through (the `uri_start > 4 and
uri_end > uri_start` guards). -/
def spliceUri (line : String) (mk : String → String) : String :=
  match strFind line ("URI=" ++ "\"") with
  | none => line
  | some i =>
    match strFindCharFrom line '"' (i + 5) with
    | none => line
    | some j =>
      if i + 5 < j then
        strTake line (i + 5) ++ mk (strSlice line (i + 5) j) ++ strDrop line j
      else line

/-- Per-line transformation of the standard path (lines 219-345), applied to
each raw line of the manifest; the line is first stripped (line 220). -/
def rewriteLine (ctx : HLSCtx) (raw : String) : String :=
  let line := pyStrip raw
  if strStarts line "#EXT-X-KEY:" ∧ strContains line "URI=" then
    spliceUri line (fun u => keyProxyUrl ctx u)
  else if strStarts line "#EXT-X-MEDIA:" ∧ strContains line "URI=" then
    spliceUri line (fun u =>
      let absu := urljoinModel ctx.baseUrl u
      if ctx.isDlhd then absu
      else ctx.pb ++ ("/proxy/hls/manifest.m3u8?d=" ++
        (pyQuote [] absu ++ ctx.headerParams)))
  else if strStarts line "#EXT-X-MAP:" ∧ strContains line "URI=" then
    spliceUri line (fun u =>
      let absu := urljoinModel ctx.baseUrl u
      if ctx.isDlhd then absu
      else ctx.pb ++ ("/proxy/hls/segment.mp4?d=" ++
        (pyQuote [] absu ++ ctx.headerParams)))
  else if line ≠ "" ∧ ¬ strStarts line "#" then
    let absu0 := if strStarts line "http" then line
      else urljoinModel ctx.baseUrl line
    let bq := urlQueryOf ctx.baseUrl
    let absu := if bq ≠ "" ∧ ¬ strContains absu0 "?" then
      absu0 ++ ("?" ++ bq) else absu0
    if ctx.isDlhd then absu
    else if strContains absu ".m3u8" then
      ctx.pb ++ ("/proxy/manifest.m3u8?url=" ++
        (pyQuote [] absu ++ ctx.headerParams))
    else
      ctx.pb ++ ("/proxy/hls/segment.mp4?d=" ++
        (pyQuote [] absu ++ ctx.headerParams))
  else line

/-- `rewrite_manifest_urls` on the standard (non-VixSrc) path: split on
newlines, rewrite each line, join (lines 144, 219-347). -/
def rewrite_manifest_urls_std (ctx : HLSCtx) (content : String) : String :=
  joinNl ((pySplitChar '\n' content).map (rewriteLine ctx))

/-- Specification-side rendering of the expansion arithmetic, written from
the spec's words: each `<S t d r>` entry sets the running clock to `t` when
given, contributes `r + 1` segments, and each produced segment advances the
clock by `d`, the sequence number by 1, and has duration `d / timescale`. -/
def specTimelineExpansion (ts : Nat) : Int → Int → List SEntry → List Segment
  | _, _, [] => []
  | clock, num, e :: rest =>
    let start := match e.t with | some t => t | none => clock
    let k := e.r.toNat + 1
    (List.range k).map (fun i =>
      ⟨start + (i : Int) * (e.d : Int), num + (i : Int), fracDiv e.d ts, e.d⟩) ++
      specTimelineExpansion ts (start + (k : Int) * (e.d : Int))
        (num + (k : Int)) rest


/-! ## Concrete example inputs used by witnesses and counterexamples -/

/-- A live template of 50 two-second segments (`<S t="0" d="2" r="49"/>`,
timescale 1, default `startNumber` 1). -/
def st50 : SegmentTemplate :=
  { timescale := 1, startNumber := 1, media := some "seg-$Number$.m4s",
    timeline := some [⟨some 0, 2, 49⟩] }

/-- A dynamic MPD with the 50-segment timeline above. -/
def doc50 : MPDDoc :=
  { mpdType := some "dynamic", baseURLs := ["http://o.example/live/"],
    adaptationSets :=
      [{ representations := [{ id := "v", segmentTemplate := some st50 }] }] }

/-- A live template of three two-second segments (total 6 s < 30 s). -/
def st3 : SegmentTemplate :=
  { timescale := 1, startNumber := 1, media := some "seg-$Number$.m4s",
    timeline := some [⟨some 0, 2, 2⟩] }

/-- A dynamic MPD with three two-second segments (total 6 s < 30 s). -/
def doc3 : MPDDoc :=
  { mpdType := some "dynamic", baseURLs := ["http://o.example/live/"],
    adaptationSets :=
      [{ representations := [{ id := "v", segmentTemplate := some st3 }] }] }

/-- A template whose `SegmentTimeline` has no `<S>` entries at all. -/
def stEmptyTl : SegmentTemplate :=
  { timescale := 1, startNumber := 1, media := some "seg-$Number$.m4s",
    timeline := some [] }

/-- A dynamic MPD whose `SegmentTimeline` has no `<S>` entries at all
(default `startNumber` 1). -/
def docEmptyTl : MPDDoc :=
  { mpdType := some "dynamic", baseURLs := ["http://o.example/live/"],
    adaptationSets :=
      [{ representations :=
          [{ id := "v", segmentTemplate := some stEmptyTl }] }] }

/-- A static MPD with no adaptation sets: any representation lookup fails. -/
def docNoRep : MPDDoc := { mpdType := none, adaptationSets := [] }

/-- A fixed-duration template: no timeline, `duration="5"`, `timescale="2"`. -/
def stFb : SegmentTemplate :=
  { timescale := 2, startNumber := 1, durationAttr := 5,
    media := some "f-$Number$.m4s" }

/-- The representation carried by the fallback document below. -/
def repFb : RepresentationNode := { id := "v", segmentTemplate := some stFb }

/-- The adaptation set carried by the fallback document below. -/
def asetFb : AdaptationSet := { representations := [repFb] }

/-- A static MPD exercising the fixed-duration fallback. -/
def docFb : MPDDoc :=
  { mpdType := none, baseURLs := ["http://o.example/vod/"],
    adaptationSets :=
      [{ representations := [{ id := "v", segmentTemplate := some stFb }] }] }

/-- An exact ClearKey `ContentProtection` entry as it may pre-exist in an
upstream manifest. -/
def cpClearKey : ContentProtection :=
  { schemeIdUri := some "urn:uuid:e2719d58-a985-b3c9-781a-007147f192ec" }

/-- A Widevine `ContentProtection` entry. -/
def cpWidevine : ContentProtection :=
  { schemeIdUri := some "urn:uuid:edef8ba9-79d6-4ace-a3c8-27dcd51d21ed" }

/-- An MPD whose single adaptation set already carries two exact ClearKey
entries (plus a Widevine one). -/
def docDupCK : MPDDoc :=
  { adaptationSets :=
      [{ contentProtections := [cpClearKey, cpClearKey, cpWidevine] }] }

/-- A well-formed `clearkey` parameter. -/
def ckExample : String := "00112233445566778899aabbccddeeff:deadbeef"

/-- A parse function standing for `ET.fromstring` on a malformed document:
it always fails. -/
def parseFail : String → Except String MPDDoc :=
  fun _ => Except.error "syntax error"

/-- A serialisation function; its result is irrelevant on the error path. -/
def serNull : MPDDoc → String := fun _ => ""

/-- The HLS rewriting context of the `#EXT-X-KEY` example of the spec. -/
def ctxKey : HLSCtx :=
  { baseUrl := "https://o.example/live/", pb := "http://px",
    chanUrl := "http://chan/1", headers := [], apiPw := none,
    isDlhd := false }

/-- A minimal generic HLS rewriting context. -/
def ctxPlain : HLSCtx :=
  { baseUrl := "http://o.example/live/", pb := "http://px", chanUrl := "",
    headers := [], apiPw := none, isDlhd := false }

/-- Is this line an `#EXTINF` line? Used to count emitted segments. -/
def isExtinfLine (l : String) : Bool :=
  "#EXTINF:".data.isPrefixOf l.data

/-- The `#EXT-X-MEDIA-SEQUENCE` tag name. -/
def msTag : String := "#EXT-X-MEDIA-SEQUENCE"

/-! ## Generic helper lemmas -/

theorem append_ne_of_ne_take (p r t : String)
    (h : p.data ≠ t.data.take p.data.length) : p ++ r ≠ t := by
  intro he
  apply h
  rw [← he, String.data_append, List.take_left]

theorem ne_of_char_mem (c : Char) (s t : String) (hs : c ∈ s.data)
    (ht : c ∉ t.data) : s ≠ t := by
  intro he
  exact ht (he ▸ hs)

theorem mem_insertAt_self {α : Type} :
    ∀ (n : Nat) (x : α) (l : List α), x ∈ insertAt n x l
  | 0, _, _ => List.mem_cons_self _ _
  | _ + 1, _, [] => List.mem_cons_self _ _
  | n + 1, x, c :: rest =>
    List.mem_cons_of_mem c (mem_insertAt_self n x rest)

theorem mem_insertAt {α : Type} :
    ∀ (n : Nat) (a x : α) (l : List α), x ∈ insertAt n a l → x = a ∨ x ∈ l := by
  intro n a x
  induction n with
  | zero =>
    intro l h
    rcases List.mem_cons.mp h with h | h
    · exact Or.inl h
    · exact Or.inr h
  | succ n ih =>
    intro l h
    cases l with
    | nil => simpa [insertAt] using h
    | cons c rest =>
      rcases List.mem_cons.mp h with h | h
      · exact Or.inr (h ▸ List.mem_cons_self _ _)
      · rcases ih rest h with h | h
        · exact Or.inl h
        · exact Or.inr (List.mem_cons_of_mem c h)

theorem take_append_of_le (k : Nat) (p r : String) (h : k ≤ p.data.length) :
    (p ++ r).data.take k = p.data.take k := by
  rw [String.data_append, List.take_append_eq_append_take,
    Nat.sub_eq_zero_of_le h, List.take_zero, List.append_nil]

theorem not_prefix_of_take_ne (t : String) (l : List Char) (k : Nat)
    (hk : k ≤ t.data.length) (h : t.data.take k ≠ l.take k) :
    ¬ (t.data <+: l) := by
  intro hp
  apply h
  rw [List.prefix_iff_eq_take.mp hp, List.take_take, inf_of_le_left hk]

theorem strContains_of_prefix (s p q : String) (hpq : p.data <+: q.data)
    (h : strContains s q = true) : strContains s p = true := by
  unfold strContains listHasInfix at h ⊢
  rcases List.any_eq_true.mp h with ⟨t, ht, hq⟩
  exact List.any_eq_true.mpr ⟨t, ht,
    List.isPrefixOf_iff_prefix.mpr
      (hpq.trans (List.isPrefixOf_iff_prefix.mp hq))⟩

/-! ## Claim C1: timeline expansion -/

theorem segRun_eq (d : Nat) (dur : Frac) :
    ∀ (k : Nat) (ct n : Int),
      segRun d dur ct n k =
        ((List.range k).map (fun i =>
          ⟨ct + (i : Int) * (d : Int), n + (i : Int), dur, d⟩),
         ct + (k : Int) * (d : Int), n + (k : Int)) := by
  intro k
  induction k with
  | zero => intro ct n; simp [segRun]
  | succ k ih =>
    intro ct n
    simp only [segRun, ih (ct + d) (n + 1), List.range_succ_eq_map,
      List.map_cons, List.map_map, Prod.mk.injEq]
    refine ⟨?_, ?_, ?_⟩
    · refine List.cons_eq_cons.mpr ⟨?_, ?_⟩
      · simp [Segment.mk.injEq]
      · refine List.map_congr_left ?_
        intro i _
        simp only [Function.comp_apply]
        rw [Segment.mk.injEq]
        refine ⟨?_, ?_, rfl, rfl⟩
        · push_cast; ring
        · push_cast; ring
    · push_cast; ring
    · push_cast; ring

theorem expandFrom_eq_spec (ts : Nat) :
    ∀ (entries : List SEntry) (ct n : Int), (∀ e ∈ entries, 0 ≤ e.r) →
      expandFrom ts ct n entries = specTimelineExpansion ts ct n entries := by
  intro entries
  induction entries with
  | nil => intro ct n _; rfl
  | cons e rest ih =>
    intro ct n h
    have hr : (e.r + 1).toNat = e.r.toNat + 1 := by
      have := h e (List.mem_cons_self _ _)
      omega
    simp only [expandFrom, specTimelineExpansion, segRun_eq, hr]
    exact congrArg _ (ih _ _ (fun x hx => h x (List.mem_cons_of_mem e hx)))

theorem expandFrom_length (ts : Nat) :
    ∀ (entries : List SEntry) (ct n : Int), (∀ e ∈ entries, 0 ≤ e.r) →
      ((expandFrom ts ct n entries).length : Int) =
        entries.length + (entries.map (fun e => e.r)).sum := by
  intro entries
  induction entries with
  | nil => intro ct n _; simp [expandFrom]
  | cons e rest ih =>
    intro ct n h
    have h0 := h e (List.mem_cons_self _ _)
    simp only [expandFrom, segRun_eq, List.length_append, List.length_map,
      List.length_range, List.map_cons, List.length_cons, List.sum_cons]
    rw [Nat.cast_add,
      ih _ _ (fun x hx => h x (List.mem_cons_of_mem e hx))]
    have hk : (((e.r + 1).toNat : Nat) : Int) = e.r + 1 := by omega
    rw [hk]
    push_cast
    ring

/-- Claim C1: in `convert_media_playlist`, when the located `SegmentTemplate`
contains a `SegmentTimeline`, expansion follows the spec arithmetic: the
expansion equals the specification-side expansion (clock set to `t` when
given, `r + 1` segments per entry, each advancing the clock by `d` and the
sequence number by 1, with duration `d / timescale`), and for `N` entries
whose `r` attributes sum to `R` exactly `N + R` segments are produced. -/
theorem convertMedia_timeline_expansion (sn : Int) (ts : Nat)
    (entries : List SEntry) (h : ∀ e ∈ entries, 0 ≤ e.r) :
    expandTimeline sn ts entries = specTimelineExpansion ts 0 sn entries ∧
    ((expandTimeline sn ts entries).length : Int) =
      entries.length + (entries.map (fun e => e.r)).sum :=
  ⟨expandFrom_eq_spec ts entries 0 sn h, expandFrom_length ts entries 0 sn h⟩

/-- Witness for C1 at the spec example `<S t="0" d="4000" r="2"/>` with
timescale 1000: three segments at times 0, 4000, 8000, each of duration
4000/1000 = 4 seconds, numbered from 1. -/
theorem convertMedia_timeline_expansion_witness :
    (∀ e ∈ [(⟨some 0, 4000, 2⟩ : SEntry)], 0 ≤ e.r) ∧
    (expandTimeline 1 1000 [⟨some 0, 4000, 2⟩] =
        specTimelineExpansion 1000 0 1 [⟨some 0, 4000, 2⟩] ∧
      ((expandTimeline 1 1000 [⟨some 0, 4000, 2⟩]).length : Int) =
        ([(⟨some 0, 4000, 2⟩ : SEntry)].length : Int) +
          ([(⟨some 0, 4000, 2⟩ : SEntry)].map (fun e => e.r)).sum) ∧
    expandTimeline 1 1000 [⟨some 0, 4000, 2⟩] =
      [⟨0, 1, ⟨4000, 1000⟩, 4000⟩, ⟨4000, 2, ⟨4000, 1000⟩, 4000⟩,
       ⟨8000, 3, ⟨4000, 1000⟩, 4000⟩] :=
  ⟨by decide, convertMedia_timeline_expansion 1 1000 _ (by decide), by decide⟩

/-! ## Live-window lemmas (claims C2 and C9) -/

theorem windowRev_prefix (total : Frac) :
    ∀ l : List Segment, windowRev total l <+: l := by
  intro l
  induction l generalizing total with
  | nil => exact List.prefix_refl _
  | cons s rest ih =>
    simp only [windowRev]
    split
    · exact ⟨rest, rfl⟩
    · rcases ih (qadd total s.duration) with ⟨t, ht⟩
      exact ⟨t, by rw [List.cons_append, ht]⟩

theorem liveWindow_suffix (l : List Segment) : liveWindow l <:+ l := by
  have h := windowRev_prefix (intFrac 0) l.reverse
  rcases h with ⟨t, ht⟩
  refine ⟨t.reverse, ?_⟩
  have := congrArg List.reverse ht
  simpa [liveWindow] using this

theorem windowRev_ne_nil (total : Frac) (s : Segment) (rest : List Segment) :
    windowRev total (s :: rest) ≠ [] := by
  simp only [windowRev]
  split <;> simp

theorem liveWindow_ne_nil (s : Segment) (rest : List Segment) :
    liveWindow (s :: rest) ≠ [] := by
  unfold liveWindow
  intro h
  have h2 : windowRev (intFrac 0) (s :: rest).reverse = [] := by
    have h3 := congrArg List.reverse h
    simpa using h3
  have h3 : (s :: rest).reverse ≠ [] := by simp
  rcases hx : (s :: rest).reverse with _ | ⟨x, xs⟩
  · exact h3 hx
  · rw [hx] at h2
    exact windowRev_ne_nil _ x xs h2

theorem expandFrom_duration_shape (ts : Nat) :
    ∀ (entries : List SEntry) (ct n : Int) (s : Segment),
      s ∈ expandFrom ts ct n entries →
        s.duration.den = ts ∧ 0 ≤ s.duration.num := by
  intro entries
  induction entries with
  | nil => intro ct n s h; simp [expandFrom] at h
  | cons e rest ih =>
    intro ct n s h
    simp only [expandFrom, segRun_eq, List.mem_append] at h
    rcases h with h | h
    · rcases List.mem_map.mp h with ⟨i, _, hi⟩
      rw [← hi]
      exact ⟨rfl, Int.ofNat_nonneg e.d⟩
    · exact ih _ _ s h

theorem qadd_toRat (a b : Frac) (ha : a.den ≠ 0) (hb : b.den ≠ 0) :
    (qadd a b).toRat = a.toRat + b.toRat := by
  unfold qadd Frac.toRat
  have ha2 : ((a.den : ℚ)) ≠ 0 := Nat.cast_ne_zero.mpr ha
  have hb2 : ((b.den : ℚ)) ≠ 0 := Nat.cast_ne_zero.mpr hb
  field_simp

theorem qleB_iff (a b : Frac) (ha : 0 < a.den) (hb : 0 < b.den) :
    qleB a b = true ↔ a.toRat ≤ b.toRat := by
  unfold qleB Frac.toRat
  rw [decide_eq_true_iff]
  rw [div_le_div_iff₀ (by exact_mod_cast ha) (by exact_mod_cast hb)]
  constructor
  · intro h; exact_mod_cast h
  · intro h; exact_mod_cast h

theorem qadd_den_pos (a b : Frac) (ha : 0 < a.den) (hb : 0 < b.den) :
    0 < (qadd a b).den := Nat.mul_pos ha hb

theorem sumDur_nonneg (l : List Segment)
    (h : ∀ s ∈ l, 0 ≤ s.duration.num) : 0 ≤ sumDur l := by
  unfold sumDur
  induction l with
  | nil => simp
  | cons s rest ih =>
    simp only [List.map_cons, List.sum_cons]
    have h1 : 0 ≤ s.duration.toRat := by
      unfold Frac.toRat
      apply div_nonneg
      · exact_mod_cast h s (List.mem_cons_self _ _)
      · exact Nat.cast_nonneg _
    have h2 := ih (fun x hx => h x (List.mem_cons_of_mem s hx))
    linarith

theorem windowRev_reaches (total : Frac) :
    ∀ l : List Segment, (∀ s ∈ l, 0 < s.duration.den) → 0 < total.den →
      30 ≤ total.toRat + sumDur (windowRev total l) ∨
        windowRev total l = l := by
  intro l
  induction l generalizing total with
  | nil => intro _ _; exact Or.inr rfl
  | cons s rest ih =>
    intro hden htot
    have hs := hden s (List.mem_cons_self _ _)
    have hadd : (qadd total s.duration).toRat = total.toRat + s.duration.toRat :=
      qadd_toRat _ _ (Nat.pos_iff_ne_zero.mp htot) (Nat.pos_iff_ne_zero.mp hs)
    simp only [windowRev]
    split
    · rename_i hq
      left
      have := (qleB_iff (intFrac 30) (qadd total s.duration) (by decide)
        (qadd_den_pos _ _ htot hs)).mp hq
      rw [hadd] at this
      have h30 : (intFrac 30).toRat = 30 := by norm_num [intFrac, Frac.toRat]
      rw [h30] at this
      simp only [sumDur, List.map_cons, List.map_nil, List.sum_cons,
        List.sum_nil, add_zero]
      linarith
    · rename_i hq
      rcases ih (qadd total s.duration)
          (fun x hx => hden x (List.mem_cons_of_mem s hx))
          (qadd_den_pos _ _ htot hs) with h | h
      · left
        rw [hadd] at h
        simp only [sumDur, List.map_cons, List.sum_cons] at h ⊢
        linarith
      · right
        rw [h]

theorem windowRev_min (total : Frac) :
    ∀ l : List Segment, (∀ s ∈ l, 0 < s.duration.den) → 0 < total.den →
      total.toRat < 30 →
      ∀ (pre : List Segment) (x : Segment),
        windowRev total l = pre ++ [x] → total.toRat + sumDur pre < 30 := by
  intro l
  induction l generalizing total with
  | nil =>
    intro _ _ _ pre x h
    exact absurd (congrArg List.length h) (by simp [windowRev])
  | cons s rest ih =>
    intro hden htot hlt pre x h
    have hs := hden s (List.mem_cons_self _ _)
    have hden2 := qadd_den_pos total s.duration htot hs
    have hadd : (qadd total s.duration).toRat = total.toRat + s.duration.toRat :=
      qadd_toRat _ _ (Nat.pos_iff_ne_zero.mp htot) (Nat.pos_iff_ne_zero.mp hs)
    simp only [windowRev] at h
    split at h
    · have hpre : pre = [] := by
        cases pre with
        | nil => rfl
        | cons p ps =>
          exfalso
          have hlen := congrArg List.length h
          simp only [List.length_cons, List.length_append,
            List.length_singleton] at hlen
          omega
      rw [hpre]
      simpa [sumDur] using hlt
    · rename_i hq
      have hlt2 : (qadd total s.duration).toRat < 30 := by
        by_contra hge
        exact hq ((qleB_iff (intFrac 30) (qadd total s.duration)
          (by decide) hden2).mpr (by
            have h30 : (intFrac 30).toRat = 30 := by
              norm_num [intFrac, Frac.toRat]
            rw [h30]
            linarith))
      cases pre with
      | nil =>
        simpa [sumDur] using hlt
      | cons p ps =>
        have hp : p = s := by
          have := congrArg (fun t => t.head?) h
          simpa using this.symm
        have htail : windowRev (qadd total s.duration) rest = ps ++ [x] := by
          have := congrArg List.tail h
          simpa using this
        have := ih (qadd total s.duration)
          (fun y hy => hden y (List.mem_cons_of_mem s hy)) hden2 hlt2 ps x htail
        rw [hadd] at this
        rw [hp]
        simp only [sumDur, List.map_cons, List.sum_cons] at this ⊢
        linarith

theorem windowRev_all (total : Frac) :
    ∀ l : List Segment, (∀ s ∈ l, 0 < s.duration.den) →
      (∀ s ∈ l, 0 ≤ s.duration.num) → 0 < total.den →
      total.toRat + sumDur l < 30 → windowRev total l = l := by
  intro l
  induction l generalizing total with
  | nil => intro _ _ _ _; rfl
  | cons s rest ih =>
    intro hden hnum htot hlt
    have hs := hden s (List.mem_cons_self _ _)
    have hden2 := qadd_den_pos total s.duration htot hs
    have hadd : (qadd total s.duration).toRat = total.toRat + s.duration.toRat :=
      qadd_toRat _ _ (Nat.pos_iff_ne_zero.mp htot) (Nat.pos_iff_ne_zero.mp hs)
    have hrest : 0 ≤ sumDur rest :=
      sumDur_nonneg rest (fun y hy => hnum y (List.mem_cons_of_mem s hy))
    simp only [sumDur, List.map_cons, List.sum_cons] at hlt
    simp only [windowRev]
    rw [if_neg, ih (qadd total s.duration)
      (fun y hy => hden y (List.mem_cons_of_mem s hy))
      (fun y hy => hnum y (List.mem_cons_of_mem s hy)) hden2 (by
        rw [hadd]
        simp only [sumDur] at hrest ⊢
        linarith)]
    intro hq
    have h2 := (qleB_iff (intFrac 30) (qadd total s.duration)
      (by decide) hden2).mp hq
    have h30 : (intFrac 30).toRat = 30 := by norm_num [intFrac, Frac.toRat]
    rw [h30, hadd] at h2
    simp only [sumDur] at hrest
    linarith

theorem qmax_toRat (a b : Frac) (ha : 0 < a.den) (hb : 0 < b.den) :
    (qmax a b).toRat = max a.toRat b.toRat := by
  unfold qmax
  split
  · rename_i hq
    rw [max_eq_right ((qleB_iff a b ha hb).mp hq)]
  · rename_i hq
    have : ¬ a.toRat ≤ b.toRat := fun h =>
      hq ((qleB_iff a b ha hb).mpr h)
    rw [max_eq_left (le_of_not_le this)]

theorem qmax_cases (a b : Frac) : qmax a b = a ∨ qmax a b = b := by
  unfold qmax
  split
  · exact Or.inr rfl
  · exact Or.inl rfl

theorem maxDur_mem (w0 : Segment) (ws : List Segment) :
    maxDur w0 ws = w0.duration ∨ ∃ s ∈ ws, maxDur w0 ws = s.duration := by
  unfold maxDur
  suffices h : ∀ (l : List Segment) (a : Frac),
      l.foldl (fun x s => qmax x s.duration) a = a ∨
        ∃ s ∈ l, l.foldl (fun x s => qmax x s.duration) a = s.duration by
    rcases h ws w0.duration with h | ⟨s, hs, he⟩
    · exact Or.inl h
    · exact Or.inr ⟨s, hs, he⟩
  intro l
  induction l with
  | nil => intro a; exact Or.inl rfl
  | cons s rest ih =>
    intro a
    simp only [List.foldl_cons]
    rcases qmax_cases a s.duration with hq | hq
    · rw [hq]
      rcases ih a with h | ⟨y, hy, he⟩
      · exact Or.inl h
      · exact Or.inr ⟨y, List.mem_cons_of_mem s hy, he⟩
    · rw [hq]
      rcases ih s.duration with h | ⟨y, hy, he⟩
      · exact Or.inr ⟨s, List.mem_cons_self _ _, h⟩
      · exact Or.inr ⟨y, List.mem_cons_of_mem s hy, he⟩

theorem maxDur_ub (w0 : Segment) (ws : List Segment)
    (hd0 : 0 < w0.duration.den) (hds : ∀ s ∈ ws, 0 < s.duration.den) :
    w0.duration.toRat ≤ (maxDur w0 ws).toRat ∧
      ∀ s ∈ ws, s.duration.toRat ≤ (maxDur w0 ws).toRat := by
  unfold maxDur
  suffices h : ∀ (l : List Segment) (a : Frac), 0 < a.den →
      (∀ s ∈ l, 0 < s.duration.den) →
      a.toRat ≤ (l.foldl (fun x s => qmax x s.duration) a).toRat ∧
        ∀ s ∈ l, s.duration.toRat ≤
          (l.foldl (fun x s => qmax x s.duration) a).toRat by
    exact h ws w0.duration hd0 hds
  intro l
  induction l with
  | nil => intro a _ _; exact ⟨le_refl _, by simp⟩
  | cons s rest ih =>
    intro a ha hl
    have hs := hl s (List.mem_cons_self _ _)
    have hq : 0 < (qmax a s.duration).den := by
      rcases qmax_cases a s.duration with h | h <;> rw [h]
      · exact ha
      · exact hs
    have hrec := ih (qmax a s.duration) hq
      (fun y hy => hl y (List.mem_cons_of_mem s hy))
    have hmax := qmax_toRat a s.duration ha hs
    simp only [List.foldl_cons]
    constructor
    · exact le_trans (by rw [hmax]; exact le_max_left _ _) hrec.1
    · intro y hy
      rcases List.mem_cons.mp hy with h | h
      · exact le_trans (by rw [h, hmax]; exact le_max_right _ _) hrec.1
      · exact hrec.2 y h

theorem core_live_timeline
    (doc : MPDDoc) (repId pb origUrl params : String) (ck : Option String)
    (aset : AdaptationSet) (rep : RepresentationNode) (st : SegmentTemplate)
    (entries : List SEntry) (s0 w0 : Segment) (srest wrest : List Segment)
    (m : String)
    (hlive : mpdIsLive doc = true)
    (hfind : findRep doc repId = some (aset, rep))
    (htmpl : tmplOf rep aset = some st)
    (htl : st.timeline = some entries)
    (hts : st.timescale ≠ 0)
    (hsegs : expandTimeline st.startNumber st.timescale entries = s0 :: srest)
    (hw : liveWindow (s0 :: srest) = w0 :: wrest)
    (hm : st.media = some m) :
    ∃ ls, convertMediaCore doc repId pb origUrl params ck = Except.ok ls ∧
      tdLine (qtrunc (maxDur w0 wrest) + 1) ∈ ls ∧
      msLine w0.number ∈ ls := by
  unfold convertMediaCore
  rw [hfind]
  simp only [hlive, htmpl, htl, hts, hm, if_true, if_false]
  rw [if_neg (by simp [hts])]
  rw [hsegs]
  simp only [hw]
  refine ⟨_, rfl, ?_, ?_⟩
  · exact List.mem_append.mpr (Or.inl (List.mem_append.mpr (Or.inl
      (List.mem_append.mpr (Or.inl (mem_insertAt_self 2 _ _))))))
  · exact List.mem_append.mpr (Or.inl (List.mem_append.mpr (Or.inl
      (List.mem_append.mpr (Or.inr (List.mem_singleton.mpr rfl))))))

theorem sumDur_reverse (l : List Segment) : sumDur l.reverse = sumDur l := by
  simp [sumDur, List.map_reverse, List.sum_reverse]

theorem qtrunc_eq_floor (q : Frac) (hn : 0 ≤ q.num) (_hd : 0 < q.den) :
    qtrunc q = ⌊q.toRat⌋ := by
  unfold qtrunc Frac.toRat
  rw [Rat.floor_intCast_div_natCast]
  exact Int.tdiv_eq_ediv hn (Int.ofNat_nonneg _)

theorem expandFrom_head_number (ts : Nat) :
    ∀ (entries : List SEntry) (ct n : Int) (s : Segment)
      (rest : List Segment),
      expandFrom ts ct n entries = s :: rest → s.number = n := by
  intro entries
  induction entries with
  | nil => intro ct n s rest h; simp [expandFrom] at h
  | cons e tail ih =>
    intro ct n s rest h
    simp only [expandFrom, segRun_eq] at h
    cases hk : (e.r + 1).toNat with
    | zero =>
      rw [hk] at h
      simp only [List.range_zero, List.map_nil, List.nil_append,
        Nat.cast_zero, add_zero] at h
      exact ih _ _ s rest h
    | succ k2 =>
      rw [hk, List.range_succ_eq_map] at h
      simp only [List.map_cons, List.cons_append, List.cons.injEq] at h
      rcases h with ⟨hs, _⟩
      rw [← hs]
      simp

/-- Claim C2 (amended): for a dynamic manifest with a non-empty expansion,
the retained window is the trailing suffix obtained by accumulating
durations from the end until at least 30 seconds are retained (suffix,
reaches 30 seconds or is the whole list, and is minimal), the emitted
`#EXT-X-TARGETDURATION` is `⌊max retained duration⌋ + 1` (`maxDur` being
the genuine maximum of the retained durations), and `#EXT-X-MEDIA-SEQUENCE`
is the first retained segment's number. (The original claim's concrete
figure of 35 for the 50-segment example is corrected to 36 by the
counterexample below.) -/
theorem convertMedia_live_window
    (doc : MPDDoc) (repId pb origUrl params : String) (ck : Option String)
    (aset : AdaptationSet) (rep : RepresentationNode) (st : SegmentTemplate)
    (entries : List SEntry) (s0 : Segment) (srest : List Segment) (m : String)
    (hts : 0 < st.timescale)
    (hlive : mpdIsLive doc = true)
    (hfind : findRep doc repId = some (aset, rep))
    (htmpl : tmplOf rep aset = some st)
    (htl : st.timeline = some entries)
    (hsegs : expandTimeline st.startNumber st.timescale entries = s0 :: srest)
    (hm : st.media = some m) :
    liveWindow (s0 :: srest) <:+ (s0 :: srest) ∧
    (30 ≤ sumDur (liveWindow (s0 :: srest)) ∨
      liveWindow (s0 :: srest) = s0 :: srest) ∧
    (∀ x ws, liveWindow (s0 :: srest) = x :: ws → sumDur ws < 30) ∧
    ∃ w0 wrest ls, liveWindow (s0 :: srest) = w0 :: wrest ∧
      convertMediaCore doc repId pb origUrl params ck = Except.ok ls ∧
      (∀ x ∈ liveWindow (s0 :: srest),
        x.duration.toRat ≤ (maxDur w0 wrest).toRat) ∧
      (∃ x ∈ liveWindow (s0 :: srest),
        (maxDur w0 wrest).toRat = x.duration.toRat) ∧
      tdLine (⌊(maxDur w0 wrest).toRat⌋ + 1) ∈ ls ∧
      msLine w0.number ∈ ls := by
  have hshape : ∀ s ∈ s0 :: srest,
      s.duration.den = st.timescale ∧ 0 ≤ s.duration.num := by
    intro s hs
    rw [← hsegs] at hs
    exact expandFrom_duration_shape st.timescale entries 0 st.startNumber s hs
  have hden : ∀ s ∈ s0 :: srest, 0 < s.duration.den := by
    intro s hs
    rw [(hshape s hs).1]
    exact hts
  have hnum : ∀ s ∈ s0 :: srest, 0 ≤ s.duration.num :=
    fun s hs => (hshape s hs).2
  have hsuf : liveWindow (s0 :: srest) <:+ (s0 :: srest) :=
    liveWindow_suffix _
  have hsubset : ∀ x ∈ liveWindow (s0 :: srest), x ∈ s0 :: srest :=
    fun x hx => hsuf.subset hx
  have hdenrev : ∀ s ∈ (s0 :: srest).reverse, 0 < s.duration.den := by
    intro s hs
    exact hden s (List.mem_reverse.mp hs)
  have h0den : 0 < (intFrac 0).den := by decide
  have h0rat : (intFrac 0).toRat = 0 := by norm_num [intFrac, Frac.toRat]
  refine ⟨hsuf, ?_, ?_, ?_⟩
  · rcases windowRev_reaches (intFrac 0) (s0 :: srest).reverse hdenrev h0den
      with h | h
    · left
      rw [h0rat, zero_add] at h
      have : sumDur (liveWindow (s0 :: srest)) =
          sumDur (windowRev (intFrac 0) (s0 :: srest).reverse) := by
        unfold liveWindow
        rw [sumDur_reverse]
      rw [this]
      exact h
    · right
      unfold liveWindow
      rw [h, List.reverse_reverse]
  · intro x ws hxw
    have hrev : windowRev (intFrac 0) (s0 :: srest).reverse =
        ws.reverse ++ [x] := by
      unfold liveWindow at hxw
      have := congrArg List.reverse hxw
      simpa using this
    have := windowRev_min (intFrac 0) (s0 :: srest).reverse hdenrev h0den
      (by rw [h0rat]; norm_num) ws.reverse x hrev
    rw [h0rat, zero_add, sumDur_reverse] at this
    exact this
  · rcases hne : liveWindow (s0 :: srest) with _ | ⟨w0, wrest⟩
    · exact absurd hne (liveWindow_ne_nil s0 srest)
    · rcases core_live_timeline doc repId pb origUrl params ck aset rep st
        entries s0 w0 srest wrest m hlive hfind htmpl htl
        (Nat.pos_iff_ne_zero.mp hts) hsegs hne hm with ⟨ls, hls, htd, hms⟩
      have hmemw : ∀ x ∈ w0 :: wrest, x ∈ s0 :: srest := by
        intro x hx
        exact hsubset x (hne ▸ hx)
      have hd0 : 0 < w0.duration.den :=
        hden w0 (hmemw w0 (List.mem_cons_self _ _))
      have hds : ∀ s ∈ wrest, 0 < s.duration.den :=
        fun s hs => hden s (hmemw s (List.mem_cons_of_mem w0 hs))
      have hub := maxDur_ub w0 wrest hd0 hds
      have htr : qtrunc (maxDur w0 wrest) = ⌊(maxDur w0 wrest).toRat⌋ := by
        rcases maxDur_mem w0 wrest with h | ⟨x, hx, h⟩
        · rw [h]
          have hx0 := hmemw w0 (List.mem_cons_self _ _)
          exact qtrunc_eq_floor _ (hnum w0 hx0) (hden w0 hx0)
        · rw [h]
          have hx0 := hmemw x (List.mem_cons_of_mem w0 hx)
          exact qtrunc_eq_floor _ (hnum x hx0) (hden x hx0)
      refine ⟨w0, wrest, ls, rfl, hls, ?_, ?_, ?_, hms⟩
      · intro x hx
        rcases List.mem_cons.mp hx with h | h
        · rw [h]; exact hub.1
        · exact hub.2 x h
      · rcases maxDur_mem w0 wrest with h | ⟨x, hx, h⟩
        · exact ⟨w0, List.mem_cons_self _ _, by rw [h]⟩
        · exact ⟨x, List.mem_cons_of_mem w0 hx, by rw [h]⟩
      · rw [← htr]
        exact htd

/-- Claim C9 (amended): for a dynamic manifest with at least one expanded
segment whose total duration is below 30 seconds, the whole expansion is
retained and `#EXT-X-MEDIA-SEQUENCE` equals the first segment's number,
which is the template's `startNumber`. (With an empty expansion the code
emits `#EXT-X-MEDIA-SEQUENCE:0` instead, per the counterexample below.) -/
theorem convertMedia_live_under30
    (doc : MPDDoc) (repId pb origUrl params : String) (ck : Option String)
    (aset : AdaptationSet) (rep : RepresentationNode) (st : SegmentTemplate)
    (entries : List SEntry) (s0 : Segment) (srest : List Segment) (m : String)
    (hts : 0 < st.timescale)
    (hlive : mpdIsLive doc = true)
    (hfind : findRep doc repId = some (aset, rep))
    (htmpl : tmplOf rep aset = some st)
    (htl : st.timeline = some entries)
    (hsegs : expandTimeline st.startNumber st.timescale entries = s0 :: srest)
    (hm : st.media = some m)
    (hsum : sumDur (s0 :: srest) < 30) :
    liveWindow (s0 :: srest) = s0 :: srest ∧
    s0.number = st.startNumber ∧
    ∃ ls, convertMediaCore doc repId pb origUrl params ck = Except.ok ls ∧
      msLine st.startNumber ∈ ls := by
  have hshape : ∀ s ∈ s0 :: srest,
      s.duration.den = st.timescale ∧ 0 ≤ s.duration.num := by
    intro s hs
    rw [← hsegs] at hs
    exact expandFrom_duration_shape st.timescale entries 0 st.startNumber s hs
  have hden : ∀ s ∈ (s0 :: srest).reverse, 0 < s.duration.den := by
    intro s hs
    rw [(hshape s (List.mem_reverse.mp hs)).1]
    exact hts
  have hnum : ∀ s ∈ (s0 :: srest).reverse, 0 ≤ s.duration.num :=
    fun s hs => (hshape s (List.mem_reverse.mp hs)).2
  have h0rat : (intFrac 0).toRat = 0 := by norm_num [intFrac, Frac.toRat]
  have hall : liveWindow (s0 :: srest) = s0 :: srest := by
    unfold liveWindow
    rw [windowRev_all (intFrac 0) (s0 :: srest).reverse hden hnum (by decide)
      (by rw [h0rat, sumDur_reverse]; linarith), List.reverse_reverse]
  have hn0 : s0.number = st.startNumber := by
    unfold expandTimeline at hsegs
    exact expandFrom_head_number st.timescale entries 0 st.startNumber s0
      srest hsegs
  rcases core_live_timeline doc repId pb origUrl params ck aset rep st entries
    s0 s0 srest srest m hlive hfind htmpl htl (Nat.pos_iff_ne_zero.mp hts)
    hsegs hall hm with ⟨ls, hls, _, hms⟩
  exact ⟨hall, hn0, ls, hls, hn0 ▸ hms⟩

/-! ## Claim C4 helpers -/

theorem notin_append {a : String} {l1 l2 : List String} (h1 : a ∉ l1)
    (h2 : a ∉ l2) : a ∉ l1 ++ l2 :=
  fun h => (List.mem_append.mp h).elim h1 h2

theorem notin_insertAt {a x : String} {l : List String} (n : Nat)
    (hx : a ≠ x) (hl : a ∉ l) : a ∉ insertAt n x l :=
  fun h => (mem_insertAt n x a l h).elim hx hl

theorem notin_flatMap_seg (a : String) (f : Segment → List String)
    (l : List Segment) (h : ∀ s, a ∉ f s) : a ∉ l.flatMap f := by
  intro hm
  rcases List.mem_flatMap.mp hm with ⟨s, _, hs⟩
  exact h s hs

theorem notin_flatMap_nat (a : String) (f : Nat → List String)
    (l : List Nat) (h : ∀ s, a ∉ f s) : a ∉ l.flatMap f := by
  intro hm
  rcases List.mem_flatMap.mp hm with ⟨s, _, hs⟩
  exact h s hs

theorem qmark_in_left (a b : String) (h : '?' ∈ a.data) :
    '?' ∈ (a ++ b).data := by
  rw [String.data_append]
  exact List.mem_append_left _ h

theorem qmark_in_right (a b : String) (h : '?' ∈ b.data) :
    '?' ∈ (a ++ b).data := by
  rw [String.data_append]
  exact List.mem_append_right _ h

theorem endlist_ne_err (e : String) :
    "#EXT-X-ERROR: " ++ e ≠ "#EXT-X-ENDLIST" :=
  append_ne_of_ne_take _ _ _ (by decide)

theorem endlist_ne_td (n : Int) : tdLine n ≠ "#EXT-X-ENDLIST" :=
  append_ne_of_ne_take _ _ _ (by decide)

theorem endlist_ne_ms (n : Int) : msLine n ≠ "#EXT-X-ENDLIST" :=
  append_ne_of_ne_take _ _ _ (by decide)

theorem endlist_ne_map (pb e p : String) :
    mapLine pb e p ≠ "#EXT-X-ENDLIST" :=
  append_ne_of_ne_take ("#EXT-X-MAP:URI=" ++ "\"") _ _ (by decide)

theorem endlist_ne_extinf (p : Nat) (q : Frac) :
    extinfLine p q ≠ "#EXT-X-ENDLIST" := by
  unfold extinfLine
  rw [String.append_assoc]
  exact append_ne_of_ne_take "#EXTINF:" _ _ (by decide)

theorem endlist_notin_segLines (ssd : Bool)
    (pb baseUrl m repId encInit decParams params : String) (seg : Segment) :
    "#EXT-X-ENDLIST" ∉
      timelineSegLines ssd pb baseUrl m repId encInit decParams params seg := by
  unfold timelineSegLines
  intro h
  rcases List.mem_cons.mp h with h | h
  · exact endlist_ne_extinf 3 seg.duration h.symm
  · rcases List.mem_singleton.mp h with h
    split at h
    · exact ne_of_char_mem '?'
        (pb ++ ("/decrypt/segment.mp4?url=" ++ (pyQuote []
          (urljoinModel baseUrl (pyReplace (pyReplace (pyReplace m
            "$RepresentationID$" repId) "$Number$" (toString seg.number))
            "$Time$" (toString seg.time))) ++ ("&init_url=" ++
          (encInit ++ (decParams ++ params))))))
        "#EXT-X-ENDLIST"
        (qmark_in_right _ _ (qmark_in_left _ _ (by decide)))
        (by decide) h.symm
    · exact ne_of_char_mem '?' _ "#EXT-X-ENDLIST"
        (qmark_in_right _ _ (qmark_in_right _ _ (qmark_in_right _ _
          (qmark_in_left "?base_url=" _ (by decide)))))
        (by decide) h.symm

theorem endlist_notin_fbLines (pb baseUrl m repId params : String) (sn : Int)
    (dsec : Frac) (i : Nat) :
    "#EXT-X-ENDLIST" ∉
      fallbackSegLines pb baseUrl m repId params sn dsec i := by
  unfold fallbackSegLines
  intro h
  rcases List.mem_cons.mp h with h | h
  · exact endlist_ne_extinf 6 dsec h.symm
  · rcases List.mem_singleton.mp h with h
    exact ne_of_char_mem '?' _ "#EXT-X-ENDLIST"
      (qmark_in_right _ _ (qmark_in_right _ _ (qmark_in_right _ _
        (qmark_in_left ".m4s?base_url=" _ (by decide)))))
      (by decide) h.symm

theorem endlist_notin_mapLines (o : Option String) (c : Bool)
    (pb e p : String) :
    "#EXT-X-ENDLIST" ∉
      (match o with
       | some _ => if c = true then [] else [mapLine pb e p]
       | none => ([] : List String)) := by
  cases o with
  | none => simp
  | some v =>
    cases c with
    | true => simp
    | false =>
      simp only [Bool.false_eq_true, if_false]
      intro h
      exact endlist_ne_map pb e p (List.mem_singleton.mp h).symm

theorem getLast?_append_singleton (l : List String) (a : String) :
    (l ++ [a]).getLast? = some a := by
  rw [List.getLast?_append]
  rfl

set_option maxHeartbeats 2000000 in
theorem no_endlist_core_live (doc : MPDDoc)
    (repId pb origUrl params : String) (ck : Option String)
    (ls : List String) (hlive : mpdIsLive doc = true)
    (hcore : convertMediaCore doc repId pb origUrl params ck = Except.ok ls) :
    "#EXT-X-ENDLIST" ∉ ls := by
  unfold convertMediaCore at hcore
  simp only [hlive, if_true] at hcore
  repeat' split at hcore
  all_goals try exact Except.noConfusion hcore
  all_goals cases hcore
  all_goals simp only [List.append_nil]
  all_goals
    repeat'
      first
      | exact List.not_mem_nil _
      | exact (by decide : "#EXT-X-ENDLIST" ∉ hdrLive)
      | exact (by decide : "#EXT-X-ENDLIST" ∉ hdrVod)
      | exact notin_flatMap_seg _ _ _
          (fun s => endlist_notin_segLines _ _ _ _ _ _ _ _ s)
      | exact notin_flatMap_nat _ _ _
          (fun i => endlist_notin_fbLines _ _ _ _ _ _ _ i)
      | exact endlist_notin_segLines _ _ _ _ _ _ _ _ _
      | exact endlist_notin_fbLines _ _ _ _ _ _ _ _
      | refine notin_append ?_ ?_
      | exact fun hm => endlist_ne_ms _ (List.mem_singleton.mp hm).symm
      | exact fun hm => endlist_ne_map _ _ _ (List.mem_singleton.mp hm).symm
      | refine notin_insertAt _ (endlist_ne_td _).symm ?_

set_option maxHeartbeats 2000000 in
theorem vod_core_endlist (doc : MPDDoc)
    (repId pb origUrl params : String) (ck : Option String)
    (ls : List String) (hlive : mpdIsLive doc = false)
    (hcore : convertMediaCore doc repId pb origUrl params ck = Except.ok ls) :
    ls.getLast? = some "#EXT-X-ENDLIST" := by
  unfold convertMediaCore at hcore
  simp only [hlive, Bool.false_eq_true, if_false] at hcore
  repeat' split at hcore
  all_goals try exact Except.noConfusion hcore
  all_goals cases hcore
  all_goals exact getLast?_append_singleton _ _

/-- Claim C4 (amended): a live (dynamic) conversion output never contains
the line `#EXT-X-ENDLIST` (error playlists included), and every successful
(non-error) VOD conversion ends with `#EXT-X-ENDLIST`; the unqualified VOD
half of the original claim fails on the error playlists (see the
counterexample). -/
theorem convertMedia_endlist (doc : MPDDoc)
    (repId pb origUrl params : String) (ck : Option String) :
    (mpdIsLive doc = true →
      "#EXT-X-ENDLIST" ∉ convert_media_playlist doc repId pb origUrl params ck) ∧
    (mpdIsLive doc = false →
      ∀ ls, convertMediaCore doc repId pb origUrl params ck = Except.ok ls →
        ls.getLast? = some "#EXT-X-ENDLIST") := by
  constructor
  · intro hlive
    unfold convert_media_playlist
    cases hcore : convertMediaCore doc repId pb origUrl params ck with
    | error e =>
      intro hm
      rcases List.mem_cons.mp hm with h | hm
      · exact absurd h (by decide)
      · exact endlist_ne_err e (List.mem_singleton.mp hm).symm
    | ok ls =>
      exact no_endlist_core_live doc repId pb origUrl params ck ls hlive hcore
  · intro hlive ls hcore
    exact vod_core_endlist doc repId pb origUrl params ck ls hlive hcore


/-! ## Claim C10 helpers -/

theorem isExtinf_extinfLine (p : Nat) (q : Frac) :
    isExtinfLine (extinfLine p q) = true := by
  unfold isExtinfLine extinfLine
  rw [List.isPrefixOf_iff_prefix, String.append_assoc, String.data_append]
  exact List.prefix_append _ _

theorem take_one_of_http (pb : String) (hpb : pb.data.take 4 = "http".data) :
    ∀ r : String, (pb ++ r).data.take 1 = ['h'] := by
  intro r
  have h2 := congrArg List.length hpb
  rw [List.length_take] at h2
  have h3 : ("http".data).length = 4 := rfl
  rw [h3] at h2
  have hlen : 4 ≤ pb.data.length := by
    rcases Nat.le_total 4 pb.data.length with h | h
    · exact h
    · rw [min_eq_right h] at h2
      omega
  rw [take_append_of_le 1 pb r (by omega)]
  have : pb.data.take 1 = ("http".data).take 1 := by
    rw [← hpb, List.take_take]
    rfl
  rw [this]
  rfl

theorem not_isExtinf_url (pb : String) (hpb : pb.data.take 4 = "http".data)
    (r : String) : isExtinfLine (pb ++ r) = false := by
  unfold isExtinfLine
  rw [Bool.eq_false_iff, Ne, List.isPrefixOf_iff_prefix]
  apply not_prefix_of_take_ne _ _ 1 (by decide)
  rw [take_one_of_http pb hpb r]
  decide

theorem not_isExtinf_map (pb e p : String) :
    isExtinfLine (mapLine pb e p) = false := by
  unfold isExtinfLine mapLine
  rw [Bool.eq_false_iff, Ne, List.isPrefixOf_iff_prefix]
  apply not_prefix_of_take_ne _ _ 5 (by decide)
  rw [take_append_of_le 5 ("#EXT-X-MAP:URI=" ++ "\"") _ (by decide)]
  decide

theorem countP_flatMap_one {α : Type} (p : String → Bool)
    (f : α → List String) :
    ∀ l : List α, (∀ x ∈ l, (f x).countP p = 1) →
      (l.flatMap f).countP p = l.length := by
  intro l
  induction l with
  | nil => intro _; rfl
  | cons x rest ih =>
    intro h
    rw [List.flatMap_cons, List.countP_append,
      h x (List.mem_cons_self _ _),
      ih (fun y hy => h y (List.mem_cons_of_mem x hy))]
    simp [Nat.add_comm]

theorem countP_extinf_fb (pb baseUrl m repId params : String) (sn : Int)
    (dsec : Frac) (hpb : pb.data.take 4 = "http".data) (i : Nat) :
    (fallbackSegLines pb baseUrl m repId params sn dsec i).countP
      isExtinfLine = 1 := by
  unfold fallbackSegLines
  rw [List.countP_cons_of_pos _ _ (isExtinf_extinfLine 6 dsec)]
  rw [List.countP_cons_of_neg, List.countP_nil]
  rw [not_isExtinf_url pb hpb]
  simp

theorem msTag_not_prefix_url (pb : String)
    (hpb : pb.data.take 4 = "http".data) (r : String) :
    ¬ (msTag.data <+: (pb ++ r).data) := by
  apply not_prefix_of_take_ne _ _ 1 (by decide)
  rw [take_one_of_http pb hpb r]
  decide

theorem msTag_not_prefix_map (pb e p : String) :
    ¬ (msTag.data <+: (mapLine pb e p).data) := by
  unfold mapLine
  apply not_prefix_of_take_ne _ _ 9 (by decide)
  rw [take_append_of_le 9 ("#EXT-X-MAP:URI=" ++ "\"") _ (by decide)]
  decide

theorem msTag_not_prefix_extinf (p : Nat) (q : Frac) :
    ¬ (msTag.data <+: (extinfLine p q).data) := by
  unfold extinfLine
  rw [String.append_assoc]
  apply not_prefix_of_take_ne _ _ 5 (by decide)
  rw [take_append_of_le 5 "#EXTINF:" _ (by decide)]
  decide

theorem msTag_not_prefix_fb (pb baseUrl m repId params : String) (sn : Int)
    (dsec : Frac) (hpb : pb.data.take 4 = "http".data) (i : Nat) :
    ∀ l ∈ fallbackSegLines pb baseUrl m repId params sn dsec i,
      ¬ (msTag.data <+: l.data) := by
  intro l hl
  unfold fallbackSegLines at hl
  rcases List.mem_cons.mp hl with h | hl
  · rw [h]
    exact msTag_not_prefix_extinf 6 dsec
  · rw [List.mem_singleton.mp hl]
    exact msTag_not_prefix_url pb hpb _

set_option maxHeartbeats 2000000 in
/-- Claim C10: in `convert_media_playlist`, when the template has no
`SegmentTimeline` but a positive `duration` attribute (and a usable
timescale), exactly 100 `#EXTINF` entries are generated — segment `i`
carrying number `startNumber + i` and duration `duration / timescale` —
regardless of the `Period` duration; this path emits no
`#EXT-X-MEDIA-SEQUENCE` tag at all, and a missing `Period` element diverts
to the error playlist. -/
theorem convertMedia_duration_fallback
    (doc : MPDDoc) (repId pb origUrl params : String) (ck : Option String)
    (aset : AdaptationSet) (rep : RepresentationNode) (st : SegmentTemplate)
    (m : String)
    (hfind : findRep doc repId = some (aset, rep))
    (htmpl : tmplOf rep aset = some st)
    (htl : st.timeline = none)
    (hdur : 0 < st.durationAttr)
    (hts : ¬ st.timescale = 0)
    (hm : st.media = some m)
    (hpb : pb.data.take 4 = "http".data) :
    (doc.periodPresent = true →
      ∃ ls, convertMediaCore doc repId pb origUrl params ck = Except.ok ls ∧
        ls.countP isExtinfLine = 100 ∧
        (∀ i : Nat, i < 100 →
          ∀ l ∈ fallbackSegLines pb (resolveBaseUrl doc origUrl) m repId
            params st.startNumber ⟨st.durationAttr, st.timescale⟩ i, l ∈ ls) ∧
        (∀ l ∈ ls, ¬ (msTag.data <+: l.data))) ∧
    (doc.periodPresent = false →
      convertMediaCore doc repId pb origUrl params ck =
        Except.error "NoneType object has no attribute get") := by
  constructor
  · intro hp
    unfold convertMediaCore
    rw [hfind]
    simp only [htmpl, htl, hm, hp, if_pos hdur, if_neg hts]
    refine ⟨_, rfl, ?_, ?_, ?_⟩
    · simp only [List.countP_append]
      have hflat : ((List.range 100).flatMap
          (fallbackSegLines pb (resolveBaseUrl doc origUrl) m repId params
            st.startNumber ⟨st.durationAttr, st.timescale⟩)).countP
            isExtinfLine = 100 := by
        rw [countP_flatMap_one _ _ _
          (fun i _ => countP_extinf_fb pb (resolveBaseUrl doc origUrl) m repId
            params st.startNumber ⟨st.durationAttr, st.timescale⟩ hpb i)]
        simp
      rw [hflat]
      have h1 : (if mpdIsLive doc = true then hdrLive else hdrVod).countP
          isExtinfLine = 0 := by
        split <;> decide
      have h2 : (match st.initialization with
          | some _ =>
            if (parseClearkey ck).1 = true then []
            else [mapLine pb (match st.initialization with
              | some ini => pyQuote [] (urljoinModel (resolveBaseUrl doc origUrl)
                  (pyReplace ini "$RepresentationID$" repId))
              | none => "") params]
          | none => ([] : List String)).countP isExtinfLine = 0 := by
        split
        · split
          · rfl
          · rw [List.countP_cons_of_neg, List.countP_nil]
            rw [not_isExtinf_map]
            simp
        · rfl
      have h3 : (if mpdIsLive doc = true then ([] : List String)
          else ["#EXT-X-ENDLIST"]).countP isExtinfLine = 0 := by
        split <;> decide
      rw [h1, h2, h3]
    · intro i hi l hl
      refine List.mem_append.mpr (Or.inl (List.mem_append.mpr (Or.inr ?_)))
      exact List.mem_flatMap.mpr ⟨i, List.mem_range.mpr hi, hl⟩
    · intro l hl
      rcases List.mem_append.mp hl with hl | hl
      rotate_left
      · revert hl
        split
        · simp
        · intro hl
          rw [List.mem_singleton.mp hl]
          decide
      rcases List.mem_append.mp hl with hl | hl
      rotate_left
      · rcases List.mem_flatMap.mp hl with ⟨i, _, hli⟩
        exact msTag_not_prefix_fb pb (resolveBaseUrl doc origUrl) m repId
          params st.startNumber ⟨st.durationAttr, st.timescale⟩ hpb i l hli
      rcases List.mem_append.mp hl with hl | hl
      · revert hl
        split
        all_goals intro hl
        all_goals fin_cases hl
        all_goals decide
      · revert hl
        split
        · split
          · simp
          · intro hl
            rw [List.mem_singleton.mp hl]
            exact msTag_not_prefix_map _ _ _
        · simp
  · intro hp
    unfold convertMediaCore
    rw [hfind]
    simp only [htmpl, htl, hm, hp, if_pos hdur]
    rfl

/-! ## Claim C6 helpers -/

theorem keep_of_exact (cp : ContentProtection)
    (h : isClearKeyCP cp = true) : keepCP cp = true := by
  unfold isClearKeyCP at h
  have h2 : cp.schemeIdUri = some clearKeyUrn := of_decide_eq_true h
  unfold keepCP
  rw [h2]
  decide

theorem countP_exact_filter_keep (cps : List ContentProtection) :
    (cps.filter keepCP).countP isClearKeyCP = cps.countP isClearKeyCP := by
  induction cps with
  | nil => rfl
  | cons c rest ih =>
    rw [List.filter_cons, List.countP_cons]
    cases hc : keepCP c with
    | true =>
      simp only [if_true, List.countP_cons, ih]
    | false =>
      have he : isClearKeyCP c = false := by
        cases he : isClearKeyCP c with
        | true => exact absurd (keep_of_exact c he) (by rw [hc]; decide)
        | false => rfl
      simp only [Bool.false_eq_true, if_false, ih, he, Nat.add_zero]

theorem any_exact_filter_keep (cps : List ContentProtection) :
    (cps.filter keepCP).any isClearKeyCP = cps.any isClearKeyCP := by
  cases h : cps.any isClearKeyCP with
  | true =>
    rcases List.any_eq_true.mp h with ⟨x, hx, he⟩
    exact List.any_eq_true.mpr
      ⟨x, List.mem_filter.mpr ⟨hx, keep_of_exact x he⟩, he⟩
  | false =>
    rw [List.any_eq_false] at h ⊢
    intro x hx
    exact h x (List.mem_filter.mp hx).1

theorem clearKeyCount_ckProcess (cpNew : ContentProtection)
    (hcp : isClearKeyCP cpNew = true) (a : AdaptationSet) :
    clearKeyCount (ckProcessAset cpNew a) =
      if 0 < clearKeyCount a then clearKeyCount a else 1 := by
  unfold ckProcessAset clearKeyCount
  cases hany : (a.contentProtections.filter keepCP).any isClearKeyCP with
  | true =>
    simp only [hany, if_true]
    rw [countP_exact_filter_keep]
    rw [any_exact_filter_keep] at hany
    rcases List.any_eq_true.mp hany with ⟨x, hx, he⟩
    rw [if_pos]
    exact List.countP_pos_iff.mpr ⟨x, hx, he⟩
  | false =>
    simp only [hany, Bool.false_eq_true, if_false]
    rw [List.countP_cons_of_pos _ _ hcp, countP_exact_filter_keep]
    rw [any_exact_filter_keep] at hany
    have h0 : a.contentProtections.countP isClearKeyCP = 0 := by
      rw [List.countP_eq_zero]
      intro x hx he
      rw [List.any_eq_false] at hany
      exact hany x hx he
    rw [h0]
    rfl

theorem isClearKey_mkCp (ckp kid pb : String) (apiPw : Option String) :
    isClearKeyCP (mkCpElement ckp kid pb apiPw) = true := by
  unfold isClearKeyCP mkCpElement
  simp

theorem isClearKey_licenseCP (pb hp : String) (cp : ContentProtection) :
    isClearKeyCP (licenseCP pb hp cp) = isClearKeyCP cp := rfl

theorem clearkeyStep_some (ckp pb : String) (apiPw : Option String)
    (doc : MPDDoc) (kid key : String) (hne : ¬ ckp = "")
    (hsplit : pySplitChar ':' ckp = [kid, key]) :
    clearkeyStep (some ckp) pb apiPw doc =
      { doc with adaptationSets :=
          doc.adaptationSets.map (ckProcessAset (mkCpElement ckp kid pb apiPw)) } := by
  simp only [clearkeyStep]
  rw [if_neg hne, hsplit]

theorem transform_mpd_asets (doc : MPDDoc) (baseUrl pb : String)
    (headers : List (String × String)) (ckp : String) (apiPw : Option String)
    (kid key : String) (hne : ¬ ckp = "")
    (hsplit : pySplitChar ':' ckp = [kid, key]) :
    (transform_mpd doc baseUrl pb headers (some ckp) apiPw).adaptationSets =
      doc.adaptationSets.map (ckFullStep baseUrl pb headers ckp apiPw kid) := by
  unfold transform_mpd
  rw [clearkeyStep_some ckp pb apiPw doc kid key hne hsplit]
  simp only [List.map_map]
  rfl

theorem clearKeyCount_ckFullStep (baseUrl pb : String)
    (headers : List (String × String)) (ckp : String) (apiPw : Option String)
    (kid : String) (a : AdaptationSet) :
    clearKeyCount (ckFullStep baseUrl pb headers ckp apiPw kid a) =
      if 0 < clearKeyCount a then clearKeyCount a else 1 := by
  unfold ckFullStep
  have hlic : clearKeyCount
      { ckProcessAset (mkCpElement ckp kid pb apiPw) a with
        contentProtections :=
          (ckProcessAset (mkCpElement ckp kid pb apiPw) a).contentProtections.map
            (licenseCP pb (headerParamsOf headers ++ apiSuffix apiPw)) } =
      clearKeyCount (ckProcessAset (mkCpElement ckp kid pb apiPw) a) := by
    unfold clearKeyCount
    simp only [List.countP_map]
    rfl
  calc clearKeyCount _ = clearKeyCount (ckProcessAset
        (mkCpElement ckp kid pb apiPw) a) := hlic
    _ = if 0 < clearKeyCount a then clearKeyCount a else 1 :=
        clearKeyCount_ckProcess _ (isClearKey_mkCp ckp kid pb apiPw) a

theorem clearKeyCount_transform_step (doc : MPDDoc) (baseUrl pb : String)
    (headers : List (String × String)) (ckp : String) (apiPw : Option String)
    (kid key : String) (hne : ¬ ckp = "")
    (hsplit : pySplitChar ':' ckp = [kid, key]) :
    (transform_mpd doc baseUrl pb headers (some ckp) apiPw).adaptationSets.map
        clearKeyCount =
      doc.adaptationSets.map (fun a =>
        if 0 < clearKeyCount a then clearKeyCount a else 1) := by
  rw [transform_mpd_asets doc baseUrl pb headers ckp apiPw kid key hne hsplit,
    List.map_map]
  exact List.map_congr_left (fun a _ =>
    clearKeyCount_ckFullStep baseUrl pb headers ckp apiPw kid a)

/-- Claim C6 (amended): re-running the ClearKey injection of
`rewrite_mpd_manifest` with a well-formed `kid:key` parameter on an
already-injected document adds no duplicate: every adaptation set's count of
exact ClearKey `ContentProtection` entries is unchanged by the second run,
every adaptation set of an injected document carries at least one such
entry, and whenever the original adaptation set carried at most one, the
doubly-injected one carries exactly one. (The unqualified "exactly one in
every AdaptationSet" of the claim fails when the upstream manifest already
carries duplicate exact ClearKey entries, which the removal pass keeps:
see the counterexample.) -/
theorem clearkey_injection_counts (doc : MPDDoc) (baseUrl pb : String)
    (headers : List (String × String)) (ckp : String) (apiPw : Option String)
    (kid key : String) (hne : ¬ ckp = "")
    (hsplit : pySplitChar ':' ckp = [kid, key]) :
    (transform_mpd (transform_mpd doc baseUrl pb headers (some ckp) apiPw)
        baseUrl pb headers (some ckp) apiPw).adaptationSets.map clearKeyCount =
      (transform_mpd doc baseUrl pb headers (some ckp)
        apiPw).adaptationSets.map clearKeyCount ∧
    (∀ c ∈ (transform_mpd doc baseUrl pb headers (some ckp)
        apiPw).adaptationSets.map clearKeyCount, 1 ≤ c) ∧
    List.Forall₂ (fun a b => clearKeyCount a ≤ 1 → clearKeyCount b = 1)
      doc.adaptationSets
      (transform_mpd (transform_mpd doc baseUrl pb headers (some ckp) apiPw)
        baseUrl pb headers (some ckp) apiPw).adaptationSets := by
  have h1 := transform_mpd_asets doc baseUrl pb headers ckp apiPw kid key
    hne hsplit
  have h2 := transform_mpd_asets
    (transform_mpd doc baseUrl pb headers (some ckp) apiPw)
    baseUrl pb headers ckp apiPw kid key hne hsplit
  refine ⟨?_, ?_, ?_⟩
  · rw [h2, h1, List.map_map, List.map_map, List.map_map]
    refine List.map_congr_left ?_
    intro a _
    have hpos : 0 < clearKeyCount (ckFullStep baseUrl pb headers ckp apiPw
        kid a) := by
      rw [clearKeyCount_ckFullStep]
      split <;> omega
    show clearKeyCount (ckFullStep baseUrl pb headers ckp apiPw kid
      (ckFullStep baseUrl pb headers ckp apiPw kid a)) = _
    rw [clearKeyCount_ckFullStep baseUrl pb headers ckp apiPw kid
      (ckFullStep baseUrl pb headers ckp apiPw kid a), if_pos hpos]
    rfl
  · rw [h1, List.map_map]
    intro c hc
    rcases List.mem_map.mp hc with ⟨a, _, rfl⟩
    show 1 ≤ clearKeyCount (ckFullStep baseUrl pb headers ckp apiPw kid a)
    rw [clearKeyCount_ckFullStep]
    split <;> omega
  · rw [h2, h1, List.map_map]
    rw [List.forall₂_map_right_iff]
    refine List.forall₂_same.mpr ?_
    intro a _ hle
    have h1a : clearKeyCount (ckFullStep baseUrl pb headers ckp apiPw kid a)
        = 1 := by
      rw [clearKeyCount_ckFullStep]
      rcases Nat.lt_or_ge 0 (clearKeyCount a) with h | h
      · rw [if_pos h]
        omega
      · rw [if_neg (by omega)]
    show clearKeyCount (ckFullStep baseUrl pb headers ckp apiPw kid
      (ckFullStep baseUrl pb headers ckp apiPw kid a)) = 1
    rw [clearKeyCount_ckFullStep, h1a]
    rfl

/-- Counterexample to the unqualified claim C6: a manifest whose adaptation
set already carries two exact ClearKey entries keeps both through the
injection, so "exactly one ClearKey ContentProtection per AdaptationSet"
fails even after a single run. -/
theorem clearkey_injection_dup_cex :
    ¬ (∀ a ∈ (transform_mpd docDupCK "http://b/" "http://p" []
        (some ckExample) none).adaptationSets, clearKeyCount a = 1) := by
  decide

/-- Claim C3 (amended): `rewrite_mpd_manifest` is total — it returns a
string for every input — but on a parse error it returns the
namespace-NORMALISED text, not the original text: the two coincide exactly
when the input already contains `xmlns` (the Python code rebinds
`manifest_content` on line 22 before the `try` body can fail). On a
successful parse it returns the serialised rewritten tree. -/
theorem rewriteMPD_total (parse : String → Except String MPDDoc)
    (serialize : MPDDoc → String) (content baseUrl pb : String)
    (headers : List (String × String)) (ckParam apiPw : Option String) :
    (∀ e, parse (normalizeMPD content) = Except.error e →
      rewrite_mpd_manifest parse serialize content baseUrl pb headers ckParam
        apiPw = normalizeMPD content) ∧
    (∀ doc, parse (normalizeMPD content) = Except.ok doc →
      rewrite_mpd_manifest parse serialize content baseUrl pb headers ckParam
        apiPw = serialize (transform_mpd doc baseUrl pb headers ckParam
          apiPw)) ∧
    (strContains content "xmlns" = true → normalizeMPD content = content) := by
  refine ⟨?_, ?_, ?_⟩
  · intro e he
    simp only [rewrite_mpd_manifest]
    rw [he]
  · intro doc hd
    simp only [rewrite_mpd_manifest]
    rw [hd]
  · intro h
    unfold normalizeMPD
    rw [h]
    rfl

/-- Counterexample to claim C3 as stated: a malformed manifest without any
`xmlns` is returned with the DASH namespace already spliced in — not "the
original manifest text unmodified". -/
theorem rewriteMPD_error_path_cex :
    rewrite_mpd_manifest parseFail serNull "<MPD><bad" "http://b/" "http://p"
        [] none none ≠ "<MPD><bad" ∧
    rewrite_mpd_manifest parseFail serNull "<MPD><bad" "http://b/" "http://p"
        [] none none =
      "<MPD xmlns=" ++ "\"urn:mpeg:dash:schema:mpd:2011\"" ++ "><bad" := by
  exact ⟨by decide, by decide⟩

/-- Claim C7 (amended): on the standard (non-VixSrc) path the HLS rewriter
splits on newlines, rewrites each line independently and joins: output line
count and order equal the input's, and every comment/tag line without a
rewritten `URI` is emitted as its STRIPPED self — `line.strip()` runs before
any branch (line 220), so surrounding whitespace is removed, not preserved
"character for character" (see the counterexample). -/
theorem hls_rewrite_line_structure (ctx : HLSCtx) (content : String) :
    rewrite_manifest_urls_std ctx content =
      joinNl ((pySplitChar '\n' content).map (rewriteLine ctx)) ∧
    ((pySplitChar '\n' content).map (rewriteLine ctx)).length =
      (pySplitChar '\n' content).length ∧
    (∀ raw, (pyStrip raw = "" ∨ (strStarts (pyStrip raw) "#" = true ∧
        ¬ ((strStarts (pyStrip raw) "#EXT-X-KEY:" = true ∨
            strStarts (pyStrip raw) "#EXT-X-MEDIA:" = true ∨
            strStarts (pyStrip raw) "#EXT-X-MAP:" = true) ∧
           strContains (pyStrip raw) "URI=" = true))) →
      rewriteLine ctx raw = pyStrip raw) := by
  refine ⟨rfl, List.length_map _ _, ?_⟩
  intro raw hcond
  simp only [rewriteLine]
  rcases hcond with hemp | ⟨hsh, hnot⟩
  · rw [hemp]
    rfl
  · rw [if_neg (fun hc => hnot ⟨Or.inl hc.1, hc.2⟩),
      if_neg (fun hc => hnot ⟨Or.inr (Or.inl hc.1), hc.2⟩),
      if_neg (fun hc => hnot ⟨Or.inr (Or.inr hc.1), hc.2⟩),
      if_neg (fun hc => hc.2 hsh)]

/-- Counterexample to claim C7 as stated: the line `#EXTM3U` followed by a
space is NOT passed through unchanged character for character — the rewriter
strips it first. -/
theorem hls_strip_passthrough_cex :
    rewrite_manifest_urls_std ctxPlain "#EXTM3U " ≠ "#EXTM3U " ∧
    rewrite_manifest_urls_std ctxPlain "#EXTM3U " = "#EXTM3U" := by
  exact ⟨by decide, by decide⟩

/-- Claim C8 (amended): the normalisation step tests for the SUBSTRING
`xmlns` anywhere in the text, not for a default namespace declaration. When
the input declares a default namespace (`xmlns="..."`, hence contains
`xmlns`), it is indeed parsed as-is; when the text contains no `xmlns` at
all, the standard DASH namespace is spliced onto the first `<MPD`
occurrence; but a document carrying only a PREFIXED namespace declaration
(e.g. `xmlns:cenc=...`) declares no default namespace yet also gets no
injection (see the counterexample). -/
theorem mpd_namespace_normalization (content : String) :
    (declaresDefaultNamespace content = true →
      normalizeMPD content = content) ∧
    (strContains content "xmlns" = true → normalizeMPD content = content) ∧
    (strContains content "xmlns" = false →
      normalizeMPD content =
        pyReplaceFirst content "<MPD" ("<MPD" ++ dashNsAttr)) := by
  refine ⟨?_, ?_, ?_⟩
  · intro h
    have h2 : strContains content "xmlns" = true :=
      strContains_of_prefix content "xmlns" "xmlns=" ⟨['='], rfl⟩ h
    unfold normalizeMPD
    rw [h2]
    rfl
  · intro h
    unfold normalizeMPD
    rw [h]
    rfl
  · intro h
    unfold normalizeMPD
    rw [h]
    rfl

/-- Counterexample to claim C8 as stated: a manifest declaring only the
prefixed `cenc` namespace declares no default namespace, yet the `'xmlns'
in manifest_content` test still suppresses the injection, so the document
is parsed without the standard DASH namespace. -/
theorem mpd_namespace_heuristic_cex :
    declaresDefaultNamespace
        "<MPD xmlns:cenc=\"urn:mpeg:cenc:2013\"></MPD>" = false ∧
    normalizeMPD "<MPD xmlns:cenc=\"urn:mpeg:cenc:2013\"></MPD>" =
      "<MPD xmlns:cenc=\"urn:mpeg:cenc:2013\"></MPD>" ∧
    strContains "<MPD xmlns:cenc=\"urn:mpeg:cenc:2013\"></MPD>"
      "urn:mpeg:dash:schema:mpd:2011" = false := by
  exact ⟨by decide, by decide, by decide⟩

/-- Claim C5: on the standard path, a stripped line starting with
`#EXT-X-KEY:` and carrying a `URI="u"` attribute (found by `find`, with a
closing quote strictly after the value's start) is emitted with `u` replaced
by `keyProxyUrl`: the proxy's `/key` endpoint carrying the percent-encoded
`urljoin(baseURL, u)`, the percent-encoded original channel URL, one
`h_<name>=<value>` pair per stream header and the optional
`api_password`, while the rest of the tag line is preserved. -/
theorem hls_key_line_rewrite (ctx : HLSCtx) (raw line u : String) (i j : Nat)
    (hstrip : pyStrip raw = line)
    (hkey : strStarts line "#EXT-X-KEY:" = true)
    (huri : strContains line "URI=" = true)
    (hfind : strFind line ("URI=" ++ "\"") = some i)
    (hq : strFindCharFrom line '"' (i + 5) = some j)
    (hlt : i + 5 < j)
    (hu : strSlice line (i + 5) j = u) :
    rewriteLine ctx raw =
      strTake line (i + 5) ++ keyProxyUrl ctx u ++ strDrop line j := by
  simp only [rewriteLine]
  rw [hstrip, if_pos ⟨hkey, huri⟩]
  simp only [spliceUri, hfind, hq]
  rw [if_pos hlt, hu]

/-- Witness for C5 at the spec's own example: `#EXT-X-KEY:METHOD=AES-128,
URI="key.bin"` against base `https://o.example/live/` yields
`key_url=https%3A%2F%2Fo.example%2Flive%2Fkey.bin`. -/
theorem hls_key_line_rewrite_witness :
    (pyStrip "#EXT-X-KEY:METHOD=AES-128,URI=\"key.bin\"" =
        "#EXT-X-KEY:METHOD=AES-128,URI=\"key.bin\"" ∧
      strStarts "#EXT-X-KEY:METHOD=AES-128,URI=\"key.bin\""
        "#EXT-X-KEY:" = true ∧
      strContains "#EXT-X-KEY:METHOD=AES-128,URI=\"key.bin\"" "URI=" = true ∧
      strFind "#EXT-X-KEY:METHOD=AES-128,URI=\"key.bin\""
        ("URI=" ++ "\"") = some 26 ∧
      strFindCharFrom "#EXT-X-KEY:METHOD=AES-128,URI=\"key.bin\"" '"'
        (26 + 5) = some 38 ∧
      26 + 5 < 38 ∧
      strSlice "#EXT-X-KEY:METHOD=AES-128,URI=\"key.bin\"" (26 + 5) 38 =
        "key.bin") ∧
    rewriteLine ctxKey "#EXT-X-KEY:METHOD=AES-128,URI=\"key.bin\"" =
      strTake "#EXT-X-KEY:METHOD=AES-128,URI=\"key.bin\"" (26 + 5) ++
        keyProxyUrl ctxKey "key.bin" ++
        strDrop "#EXT-X-KEY:METHOD=AES-128,URI=\"key.bin\"" 38 ∧
    rewriteLine ctxKey "#EXT-X-KEY:METHOD=AES-128,URI=\"key.bin\"" =
      "#EXT-X-KEY:METHOD=AES-128,URI=\"" ++
        ("http://px/key?key_url=https%3A%2F%2Fo.example%2Flive%2Fkey.bin" ++
          ("&original_channel_url=http%3A%2F%2Fchan%2F1" ++ "\"")) := by
  refine ⟨⟨by decide, by decide, by decide, by decide, by decide, by decide,
    by decide⟩, ?_, by decide⟩
  exact hls_key_line_rewrite ctxKey
    "#EXT-X-KEY:METHOD=AES-128,URI=\"key.bin\""
    "#EXT-X-KEY:METHOD=AES-128,URI=\"key.bin\"" "key.bin" 26 38
    (by decide) (by decide) (by decide) (by decide) (by decide) (by decide)
    (by decide)

/-- Witness for C3: on a malformed document that already carries `xmlns`
nothing is re-spliced, so the parse-error return really is the input text. -/
theorem rewriteMPD_total_witness :
    parseFail (normalizeMPD "<MPD><bad") = Except.error "syntax error" ∧
    rewrite_mpd_manifest parseFail serNull "<MPD><bad" "http://b/" "http://p"
        [] none none = normalizeMPD "<MPD><bad" :=
  ⟨rfl, (rewriteMPD_total parseFail serNull "<MPD><bad" "http://b/"
    "http://p" [] none none).1 "syntax error" rfl⟩

/-- Witness for C6 at the duplicate-ClearKey document and a well-formed
`kid:key` parameter. -/
theorem clearkey_injection_counts_witness :
    (¬ ckExample = "" ∧
      pySplitChar ':' ckExample =
        ["00112233445566778899aabbccddeeff", "deadbeef"]) ∧
    ((transform_mpd (transform_mpd docDupCK "http://b/" "http://p" []
        (some ckExample) none) "http://b/" "http://p" []
        (some ckExample) none).adaptationSets.map clearKeyCount =
      (transform_mpd docDupCK "http://b/" "http://p" []
        (some ckExample) none).adaptationSets.map clearKeyCount ∧
    (∀ c ∈ (transform_mpd docDupCK "http://b/" "http://p" []
        (some ckExample) none).adaptationSets.map clearKeyCount, 1 ≤ c) ∧
    List.Forall₂ (fun a b => clearKeyCount a ≤ 1 → clearKeyCount b = 1)
      docDupCK.adaptationSets
      (transform_mpd (transform_mpd docDupCK "http://b/" "http://p" []
        (some ckExample) none) "http://b/" "http://p" []
        (some ckExample) none).adaptationSets) :=
  ⟨⟨by decide, by decide⟩,
    clearkey_injection_counts docDupCK "http://b/" "http://p" [] ckExample
      none "00112233445566778899aabbccddeeff" "deadbeef" (by decide)
      (by decide)⟩

/-- Witness for C7: a tag line with surrounding whitespace and no `URI` is
emitted as its stripped self. -/
theorem hls_rewrite_line_structure_witness :
    (pyStrip " #EXT-X-VERSION:3 " = "" ∨
      (strStarts (pyStrip " #EXT-X-VERSION:3 ") "#" = true ∧
      ¬ ((strStarts (pyStrip " #EXT-X-VERSION:3 ") "#EXT-X-KEY:" = true ∨
          strStarts (pyStrip " #EXT-X-VERSION:3 ") "#EXT-X-MEDIA:" = true ∨
          strStarts (pyStrip " #EXT-X-VERSION:3 ") "#EXT-X-MAP:" = true) ∧
         strContains (pyStrip " #EXT-X-VERSION:3 ") "URI=" = true))) ∧
    rewriteLine ctxPlain " #EXT-X-VERSION:3 " =
      pyStrip " #EXT-X-VERSION:3 " :=
  ⟨by decide, (hls_rewrite_line_structure ctxPlain "").2.2
    " #EXT-X-VERSION:3 " (by decide)⟩

/-- Witness for C8: a document declaring the default DASH namespace is
parsed as-is. -/
theorem mpd_namespace_normalization_witness :
    declaresDefaultNamespace
        "<MPD xmlns=\"urn:mpeg:dash:schema:mpd:2011\"></MPD>" = true ∧
    normalizeMPD "<MPD xmlns=\"urn:mpeg:dash:schema:mpd:2011\"></MPD>" =
      "<MPD xmlns=\"urn:mpeg:dash:schema:mpd:2011\"></MPD>" :=
  ⟨by decide, (mpd_namespace_normalization
    "<MPD xmlns=\"urn:mpeg:dash:schema:mpd:2011\"></MPD>").1 (by decide)⟩

/-- Witness for C10 at the concrete fallback document: 100 segments, no
`#EXT-X-MEDIA-SEQUENCE`, and a Period is required. -/
theorem convertMedia_duration_fallback_witness :
    (findRep docFb "v" = some (asetFb, repFb) ∧
      tmplOf repFb asetFb = some stFb ∧
      stFb.timeline = none ∧ 0 < stFb.durationAttr ∧
      ¬ stFb.timescale = 0 ∧ stFb.media = some "f-$Number$.m4s" ∧
      "http://px".data.take 4 = "http".data) ∧
    ((docFb.periodPresent = true →
      ∃ ls, convertMediaCore docFb "v" "http://px" "u" "" none =
          Except.ok ls ∧
        ls.countP isExtinfLine = 100 ∧
        (∀ i : Nat, i < 100 →
          ∀ l ∈ fallbackSegLines "http://px" (resolveBaseUrl docFb "u")
            "f-$Number$.m4s" "v" "" stFb.startNumber
            ⟨stFb.durationAttr, stFb.timescale⟩ i, l ∈ ls) ∧
        (∀ l ∈ ls, ¬ (msTag.data <+: l.data))) ∧
    (docFb.periodPresent = false →
      convertMediaCore docFb "v" "http://px" "u" "" none =
        Except.error "NoneType object has no attribute get")) :=
  ⟨⟨by decide, by decide, by decide, by decide, by decide, by decide,
    by decide⟩,
    convertMedia_duration_fallback docFb "v" "http://px" "u" "" none
      asetFb repFb stFb "f-$Number$.m4s"
      (by decide) (by decide) (by decide) (by decide) (by decide) (by decide)
      (by decide)⟩

set_option maxRecDepth 1000000 in
/-- Counterexample for C2 as stated: the live playlist of 50 two-second
segments (default `startNumber` 1) retains the last 15 segments but emits
`#EXT-X-MEDIA-SEQUENCE:36`, not 35 as claimed. -/
theorem convertMedia_mediaSequence_50x2_cex :
    (liveWindow (expandTimeline 1 1 [⟨some 0, 2, 49⟩])).length = 15 ∧
    "#EXT-X-MEDIA-SEQUENCE:35" ∉
      convert_media_playlist doc50 "v" "http://p"
        "http://o.example/live/ch.mpd" "" none ∧
    "#EXT-X-MEDIA-SEQUENCE:36" ∈
      convert_media_playlist doc50 "v" "http://p"
        "http://o.example/live/ch.mpd" "" none := by
  refine ⟨by decide, by decide, by decide⟩

set_option maxRecDepth 100000 in
/-- Counterexample for C9 as stated: a dynamic manifest whose timeline has
no `<S>` entries (total duration 0 < 30 s, `startNumber` defaulting to 1)
emits `#EXT-X-MEDIA-SEQUENCE:0`, not the template's `startNumber` 1. -/
theorem convertMedia_emptyTimeline_cex :
    mpdIsLive docEmptyTl = true ∧
    expandTimeline 1 1 ([] : List SEntry) = [] ∧
    stEmptyTl.startNumber = 1 ∧
    "#EXT-X-MEDIA-SEQUENCE:0" ∈
      convert_media_playlist docEmptyTl "v" "http://p"
        "http://o.example/live/ch.mpd" "" none ∧
    "#EXT-X-MEDIA-SEQUENCE:1" ∉
      convert_media_playlist docEmptyTl "v" "http://p"
        "http://o.example/live/ch.mpd" "" none := by
  refine ⟨by decide, by decide, by decide, by decide, by decide⟩

/-- Witness for the amended C2 at the three-segment live document. -/
theorem convertMedia_live_window_witness :
    (0 < st3.timescale ∧ mpdIsLive doc3 = true ∧
      findRep doc3 "v" =
        some ({ representations := [{ id := "v", segmentTemplate := some st3 }] },
          { id := "v", segmentTemplate := some st3 }) ∧
      st3.timeline = some [⟨some 0, 2, 2⟩] ∧
      expandTimeline st3.startNumber st3.timescale [⟨some 0, 2, 2⟩] =
        ⟨0, 1, ⟨2, 1⟩, 2⟩ :: [⟨2, 2, ⟨2, 1⟩, 2⟩, ⟨4, 3, ⟨2, 1⟩, 2⟩]) ∧
    (liveWindow (⟨0, 1, ⟨2, 1⟩, 2⟩ :: [⟨2, 2, ⟨2, 1⟩, 2⟩, ⟨4, 3, ⟨2, 1⟩, 2⟩]) <:+
      (⟨0, 1, ⟨2, 1⟩, 2⟩ :: [⟨2, 2, ⟨2, 1⟩, 2⟩, ⟨4, 3, ⟨2, 1⟩, 2⟩]) ∧
    (30 ≤ sumDur (liveWindow
        (⟨0, 1, ⟨2, 1⟩, 2⟩ :: [⟨2, 2, ⟨2, 1⟩, 2⟩, ⟨4, 3, ⟨2, 1⟩, 2⟩])) ∨
      liveWindow (⟨0, 1, ⟨2, 1⟩, 2⟩ :: [⟨2, 2, ⟨2, 1⟩, 2⟩, ⟨4, 3, ⟨2, 1⟩, 2⟩]) =
        ⟨0, 1, ⟨2, 1⟩, 2⟩ :: [⟨2, 2, ⟨2, 1⟩, 2⟩, ⟨4, 3, ⟨2, 1⟩, 2⟩]) ∧
    (∀ x ws,
      liveWindow (⟨0, 1, ⟨2, 1⟩, 2⟩ :: [⟨2, 2, ⟨2, 1⟩, 2⟩, ⟨4, 3, ⟨2, 1⟩, 2⟩]) =
        x :: ws → sumDur ws < 30) ∧
    ∃ w0 wrest ls,
      liveWindow (⟨0, 1, ⟨2, 1⟩, 2⟩ :: [⟨2, 2, ⟨2, 1⟩, 2⟩, ⟨4, 3, ⟨2, 1⟩, 2⟩]) =
        w0 :: wrest ∧
      convertMediaCore doc3 "v" "http://p" "http://o.example/live/ch.mpd" ""
        none = Except.ok ls ∧
      (∀ x ∈ liveWindow
          (⟨0, 1, ⟨2, 1⟩, 2⟩ :: [⟨2, 2, ⟨2, 1⟩, 2⟩, ⟨4, 3, ⟨2, 1⟩, 2⟩]),
        x.duration.toRat ≤ (maxDur w0 wrest).toRat) ∧
      (∃ x ∈ liveWindow
          (⟨0, 1, ⟨2, 1⟩, 2⟩ :: [⟨2, 2, ⟨2, 1⟩, 2⟩, ⟨4, 3, ⟨2, 1⟩, 2⟩]),
        (maxDur w0 wrest).toRat = x.duration.toRat) ∧
      tdLine (⌊(maxDur w0 wrest).toRat⌋ + 1) ∈ ls ∧
      msLine w0.number ∈ ls) :=
  ⟨⟨by decide, by decide, by decide, by decide, by decide⟩,
    convertMedia_live_window doc3 "v" "http://p" "http://o.example/live/ch.mpd"
      "" none
      ({ representations := [{ id := "v", segmentTemplate := some st3 }] })
      ({ id := "v", segmentTemplate := some st3 }) st3 [⟨some 0, 2, 2⟩]
      ⟨0, 1, ⟨2, 1⟩, 2⟩ [⟨2, 2, ⟨2, 1⟩, 2⟩, ⟨4, 3, ⟨2, 1⟩, 2⟩]
      "seg-$Number$.m4s"
      (by decide) (by decide) (by decide) (by decide) (by decide) (by decide)
      (by decide)⟩

/-- Witness for the amended C9 at the three-segment live document
(6 seconds total). -/
theorem convertMedia_live_under30_witness :
    (sumDur (⟨0, 1, ⟨2, 1⟩, 2⟩ :: [⟨2, 2, ⟨2, 1⟩, 2⟩, ⟨4, 3, ⟨2, 1⟩, 2⟩]) < 30) ∧
    (liveWindow (⟨0, 1, ⟨2, 1⟩, 2⟩ :: [⟨2, 2, ⟨2, 1⟩, 2⟩, ⟨4, 3, ⟨2, 1⟩, 2⟩]) =
      ⟨0, 1, ⟨2, 1⟩, 2⟩ :: [⟨2, 2, ⟨2, 1⟩, 2⟩, ⟨4, 3, ⟨2, 1⟩, 2⟩] ∧
    (⟨0, 1, ⟨2, 1⟩, 2⟩ : Segment).number = st3.startNumber ∧
    ∃ ls, convertMediaCore doc3 "v" "http://p" "http://o.example/live/ch.mpd"
        "" none = Except.ok ls ∧
      msLine st3.startNumber ∈ ls) :=
  ⟨by norm_num [sumDur, Frac.toRat],
    convertMedia_live_under30 doc3 "v" "http://p" "http://o.example/live/ch.mpd"
      "" none
      ({ representations := [{ id := "v", segmentTemplate := some st3 }] })
      ({ id := "v", segmentTemplate := some st3 }) st3 [⟨some 0, 2, 2⟩]
      ⟨0, 1, ⟨2, 1⟩, 2⟩ [⟨2, 2, ⟨2, 1⟩, 2⟩, ⟨4, 3, ⟨2, 1⟩, 2⟩]
      "seg-$Number$.m4s"
      (by decide) (by decide) (by decide) (by decide) (by decide) (by decide)
      (by decide) (by norm_num [sumDur, Frac.toRat])⟩

set_option maxRecDepth 1000000 in
/-- Witness for the amended C4: on the live three-segment document the
output has no `#EXT-X-ENDLIST`; on the static fallback document the
(successful) output ends with it. -/
theorem convertMedia_endlist_witness :
    mpdIsLive doc3 = true ∧
    "#EXT-X-ENDLIST" ∉
      convert_media_playlist doc3 "v" "http://p" "http://o.example/live/ch.mpd"
        "" none ∧
    mpdIsLive docFb = false ∧
    (convert_media_playlist docFb "v" "http://p" "u" "" none).getLast? =
      some "#EXT-X-ENDLIST" := by
  refine ⟨by decide, ?_, by decide, ?_⟩
  · exact (convertMedia_endlist doc3 "v" "http://p"
      "http://o.example/live/ch.mpd" "" none).1 (by decide)
  · exact (convertMedia_endlist docFb "v" "http://p" "u" "" none).2
      (by decide) (convert_media_playlist docFb "v" "http://p" "u" "" none)
      (by rfl)

/-- Counterexample for C4 as stated: a static (VOD) manifest whose
representation lookup fails produces the error playlist, which does not end
with `#EXT-X-ENDLIST`. -/
theorem convertMedia_endlist_cex :
    mpdIsLive docNoRep = false ∧
    (convert_media_playlist docNoRep "v" "http://p" "u" "" none).getLast? ≠
      some "#EXT-X-ENDLIST" := by
  refine ⟨by decide, by decide⟩
